import Mathlib

/-!
Shallow embedding of the RBI (Remote Browser Isolation) server core
(`rbi-cuda-solution/server`): browser pool, session manager, streaming
engine (frame gating, frame-processor queue, adaptive quality controller),
CUDA encoder fallback chain, and the WebRTC service.

Conventions of the embedding:
* JavaScript `Map`s become association lists `List (Nat × _)` keyed by ids.
* `Date.now()` timestamps are naturals (milliseconds); where the source
  subtracts possibly-fractional quantities (frame intervals `1000/F`,
  bitrate scale factors `0.8`, `0.9`, `1.1`) the embedding computes in `ℚ`.
* Fallible operations (`throw` in the source) return `Except`.
* External effects (puppeteer, ffmpeg, the wrtc native library) are modelled
  by the data the core code reads from them (page counts, process exit
  codes, module availability), never by the core logic itself.
-/

namespace RBI

/-! ## Configuration (utils/config.js) -/

/-- `BROWSER_CONFIG`: pool caps and restart thresholds. `initialPages` is the
number of pages a freshly launched browser engine reports (the environment's
contribution: puppeteer launches with one blank page); it parameterises the
embedding rather than hard-coding engine behaviour. -/
structure BrowserConfig where
  maxBrowsers : Nat
  maxPagesPerBrowser : Nat
  restartBrowserAfterPages : Nat
  restartBrowserAfterTime : Nat
  initialPages : Nat
  deriving DecidableEq, Repr

/-- Default values from `utils/config.js` (`maxBrowsers` 5, `maxPagesPerBrowser`
5, restart after 50 pages or 1 hour). -/
def defaultBrowserConfig : BrowserConfig :=
  { maxBrowsers := 5
    maxPagesPerBrowser := 5
    restartBrowserAfterPages := 50
    restartBrowserAfterTime := 60 * 60 * 1000
    initialPages := 1 }

/-- `STREAMING_CONFIG` fields used by the streaming engine. -/
structure StreamingConfig where
  defaultFrameRate : ℚ
  minFrameRate : ℚ
  defaultBitrate : ℚ
  minBitrate : ℚ
  deriving DecidableEq, Repr

/-- Default values from `utils/config.js`. -/
def defaultStreamingConfig : StreamingConfig :=
  { defaultFrameRate := 30, minFrameRate := 15, defaultBitrate := 3000, minBitrate := 500 }

/-! ## Adaptive quality controller (browser-pool.js, `applyAdaptiveQuality`) -/

/-- Network / encoding health classification. -/
inductive Condition where
  | good
  | fair
  | poor
  deriving DecidableEq, Repr

/-- Classification of network conditions from the rolling averages
(`applyAdaptiveQuality`): poor when avgRtt > 300 or avgJitter > 50 or
avgPacketLoss > 5; fair when avgRtt > 150 or avgJitter > 25 or
avgPacketLoss > 2; good otherwise. -/
def classifyNetwork (avgRtt avgJitter avgPacketLoss : ℚ) : Condition :=
  if 300 < avgRtt ∨ 50 < avgJitter ∨ 5 < avgPacketLoss then .poor
  else if 150 < avgRtt ∨ 25 < avgJitter ∨ 2 < avgPacketLoss then .fair
  else .good

/-- Classification of encoding conditions: poor when avgEncodingTime > 50,
fair when > 25, good otherwise. -/
def classifyEncoding (avgEncodingTime : ℚ) : Condition :=
  if 50 < avgEncodingTime then .poor
  else if 25 < avgEncodingTime then .fair
  else .good

/-- The quality tuple the controller adjusts (the width/height/quality fields
of the source's quality objects are carried along unchanged by every
adjustment, so the embedding keeps the two adjusted fields). -/
structure Quality where
  bitrate : ℚ
  frameRate : ℚ
  deriving DecidableEq, Repr

/-- Per-stream adaptive quality controller state
(`createAdaptiveQualityController`): `ceilingBitrate`/`ceilingFrameRate` are
`options.bitrate`/`options.frameRate`, the creation-time targets used as
ceilings by the good-good branch. -/
structure AQController where
  ceilingBitrate : ℚ
  ceilingFrameRate : ℚ
  currentQuality : Quality
  targetQuality : Quality
  deriving DecidableEq, Repr

/-- Controller as created by `createAdaptiveQualityController`: current and
target quality both start at the option values. -/
def mkAQController (bitrate frameRate : ℚ) : AQController :=
  { ceilingBitrate := bitrate
    ceilingFrameRate := frameRate
    currentQuality := { bitrate := bitrate, frameRate := frameRate }
    targetQuality := { bitrate := bitrate, frameRate := frameRate } }

/-- The `networkCondition === 'poor' || encodingCondition === 'poor'` branch
of `applyAdaptiveQuality`: scale bitrate and frame rate by 0.8, clamped below
at `STREAMING_CONFIG.minBitrate` / `minFrameRate`; each guard fires only
while the current value is strictly above its floor. -/
def poorAdjust (cfg : StreamingConfig) (c : AQController) : AQController × Bool :=
  let cur := c.currentQuality
  let tb := if cfg.minBitrate < cur.bitrate
    then max (cur.bitrate * (8/10)) cfg.minBitrate else c.targetQuality.bitrate
  let tf := if cfg.minFrameRate < cur.frameRate
    then max (cur.frameRate * (8/10)) cfg.minFrameRate else c.targetQuality.frameRate
  ({ c with targetQuality := { bitrate := tb, frameRate := tf } },
    decide (cfg.minBitrate < cur.bitrate) || decide (cfg.minFrameRate < cur.frameRate))

/-- The fair branch of `applyAdaptiveQuality`: a smaller bitrate-only
decrease by factor 0.9, same floor clamp. -/
def fairAdjust (cfg : StreamingConfig) (c : AQController) : AQController × Bool :=
  if cfg.minBitrate < c.currentQuality.bitrate then
    ({ c with targetQuality :=
        { c.targetQuality with
            bitrate := max (c.currentQuality.bitrate * (9/10)) cfg.minBitrate } }, true)
  else (c, false)

/-- The good-and-good branch of `applyAdaptiveQuality`: scale bitrate and
frame rate by 1.1, clamped above at the controller's creation-time options
(`adaptiveQualityController.options.bitrate` / `.frameRate`). -/
def goodAdjust (c : AQController) : AQController × Bool :=
  let cur := c.currentQuality
  let tb := if cur.bitrate < c.ceilingBitrate
    then min (cur.bitrate * (11/10)) c.ceilingBitrate else c.targetQuality.bitrate
  let tf := if cur.frameRate < c.ceilingFrameRate
    then min (cur.frameRate * (11/10)) c.ceilingFrameRate else c.targetQuality.frameRate
  ({ c with targetQuality := { bitrate := tb, frameRate := tf } },
    decide (cur.bitrate < c.ceilingBitrate) || decide (cur.frameRate < c.ceilingFrameRate))

/-- The condition-driven adjustment step of `applyAdaptiveQuality`
(browser-pool.js lines 1978–2041), given the already-computed network and
encoding classifications.  Mirrors the if/else-if chain; returns the updated
controller and the `qualityChanged` flag.  When the flag is set the source
copies `targetQuality` into `currentQuality` (and pushes the rounded values
to the encoder via `updateEncoderOptions`). -/
def adjustQuality (cfg : StreamingConfig) (net enc : Condition) (c : AQController) :
    AQController × Bool :=
  let (c1, changed) :=
    if net = .poor ∨ enc = .poor then poorAdjust cfg c
    else if net = .fair ∨ enc = .fair then fairAdjust cfg c
    else if net = .good ∧ enc = .good then goodAdjust c
    else (c, false)
  if changed then ({ c1 with currentQuality := c1.targetQuality }, true)
  else (c1, false)

/-- One adaptive tick with fixed classifications: the controller after
`adjustQuality` and the current-quality sync. -/
def aqTick (cfg : StreamingConfig) (net enc : Condition) (c : AQController) : AQController :=
  (adjustQuality cfg net enc c).1

/-- Folding a list of (network, encoding) classification pairs through
successive adaptive ticks. -/
def aqTicks (cfg : StreamingConfig) (conds : List (Condition × Condition))
    (c : AQController) : AQController :=
  conds.foldl (fun s p => aqTick cfg p.1 p.2 s) c

/-- Every adjustment leaves the creation-time ceiling untouched. -/
lemma aqTick_ceilingBitrate (cfg : StreamingConfig) (net enc : Condition) (c : AQController) :
    (aqTick cfg net enc c).ceilingBitrate = c.ceilingBitrate := by
  unfold aqTick adjustQuality poorAdjust fairAdjust goodAdjust
  split_ifs <;> simp <;> split_ifs <;> rfl

/-- The source only reads `targetQuality` through stale-value paths; at tick
boundaries current and target bitrate agree, and every tick preserves that. -/
lemma aqTick_sync (cfg : StreamingConfig) (net enc : Condition) (c : AQController)
    (hsync : c.currentQuality.bitrate = c.targetQuality.bitrate) :
    (aqTick cfg net enc c).currentQuality.bitrate =
      (aqTick cfg net enc c).targetQuality.bitrate := by
  unfold aqTick adjustQuality poorAdjust fairAdjust goodAdjust
  split_ifs <;> simp_all <;> split_ifs <;> simp_all

/-- Bitrate behaviour of a tick whose classifications include a `poor`:
never an increase; clamped at the floor from above; a strict decrease while
strictly above the floor. -/
lemma aqTick_poor_bitrate (cfg : StreamingConfig) (net enc : Condition) (c : AQController)
    (hp : net = .poor ∨ enc = .poor)
    (hsync : c.currentQuality.bitrate = c.targetQuality.bitrate)
    (hmin : 0 ≤ cfg.minBitrate) :
    (aqTick cfg net enc c).currentQuality.bitrate ≤ c.currentQuality.bitrate ∧
    (cfg.minBitrate ≤ c.currentQuality.bitrate →
      cfg.minBitrate ≤ (aqTick cfg net enc c).currentQuality.bitrate) ∧
    (cfg.minBitrate < c.currentQuality.bitrate →
      (aqTick cfg net enc c).currentQuality.bitrate < c.currentQuality.bitrate) := by
  unfold aqTick adjustQuality poorAdjust
  rw [if_pos hp]
  by_cases hb : cfg.minBitrate < c.currentQuality.bitrate <;>
    by_cases hf : cfg.minFrameRate < c.currentQuality.frameRate <;>
      simp only [hb, hf, if_true, if_false, decide_True, decide_False, Bool.true_or,
        Bool.or_true, Bool.false_or, Bool.or_false, if_pos, ite_true, ite_false] <;>
    constructor
  · exact max_le (by nlinarith) (le_of_lt hb)
  · exact ⟨fun _ => le_max_right _ _,
      fun _ => max_lt (by nlinarith) hb⟩
  · exact max_le (by nlinarith) (le_of_lt hb)
  · exact ⟨fun _ => le_max_right _ _,
      fun _ => max_lt (by nlinarith) hb⟩
  · simp [hsync]
  · exact ⟨fun h => by simp [← hsync, h], fun h => h.elim⟩
  · exact le_refl _
  · exact ⟨fun h => h, fun h => h.elim⟩

/-- Bitrate behaviour of a tick whose classifications are both `good`:
never a decrease; never beyond the creation-time ceiling (or the starting
bitrate, if that already exceeded the ceiling). -/
lemma aqTick_good_bitrate (cfg : StreamingConfig) (c : AQController)
    (hsync : c.currentQuality.bitrate = c.targetQuality.bitrate)
    (hb0 : 0 ≤ c.currentQuality.bitrate) :
    c.currentQuality.bitrate ≤ (aqTick cfg .good .good c).currentQuality.bitrate ∧
    (aqTick cfg .good .good c).currentQuality.bitrate ≤
      max c.currentQuality.bitrate c.ceilingBitrate := by
  unfold aqTick adjustQuality goodAdjust
  simp only [reduceCtorEq, or_self, if_false, and_self, if_true]
  by_cases hb : c.currentQuality.bitrate < c.ceilingBitrate <;>
    by_cases hf : c.currentQuality.frameRate < c.ceilingFrameRate <;>
      simp only [hb, hf, if_true, if_false, decide_True, decide_False, Bool.true_or,
        Bool.or_true, Bool.false_or, Bool.or_false, ite_true, ite_false] <;>
    constructor
  · exact le_min (by nlinarith) (le_of_lt hb)
  · exact le_trans (min_le_right _ _) (le_max_right _ _)
  · exact le_min (by nlinarith) (le_of_lt hb)
  · exact le_trans (min_le_right _ _) (le_max_right _ _)
  · simp [← hsync]
  · simp [← hsync]
  · exact le_refl _
  · exact le_max_left _ _

/-- Unfolding lemma for `aqTicks` on a cons cell. -/
lemma aqTicks_cons (cfg : StreamingConfig) (p : Condition × Condition)
    (rest : List (Condition × Condition)) (c : AQController) :
    aqTicks cfg (p :: rest) c = aqTicks cfg rest (aqTick cfg p.1 p.2 c) := rfl

/-- Repeated good-good ticks: bitrate is nondecreasing and stays below
`max` of the starting bitrate and the ceiling, and the sync and
nonnegativity invariants persist. -/
lemma aqTicks_good_bitrate (cfg : StreamingConfig) (conds : List (Condition × Condition))
    (c : AQController)
    (hall : ∀ p ∈ conds, p.1 = Condition.good ∧ p.2 = Condition.good)
    (hsync : c.currentQuality.bitrate = c.targetQuality.bitrate)
    (hb0 : 0 ≤ c.currentQuality.bitrate) :
    c.currentQuality.bitrate ≤ (aqTicks cfg conds c).currentQuality.bitrate ∧
    (aqTicks cfg conds c).currentQuality.bitrate ≤
      max c.currentQuality.bitrate c.ceilingBitrate := by
  induction conds generalizing c with
  | nil => exact ⟨le_refl _, le_max_left _ _⟩
  | cons p rest ih =>
    obtain ⟨h1, h2⟩ := hall p (List.mem_cons_self _ _)
    have hstep := aqTick_good_bitrate cfg c hsync hb0
    have hsync' := aqTick_sync cfg p.1 p.2 c hsync
    have hceil := aqTick_ceilingBitrate cfg p.1 p.2 c
    have hrest := ih (aqTick cfg p.1 p.2 c)
      (fun q hq => hall q (List.mem_cons_of_mem _ hq)) hsync'
      (le_trans hb0 (h1 ▸ h2 ▸ hstep.1))
    rw [aqTicks_cons, h1, h2] at *
    refine ⟨le_trans hstep.1 hrest.1, le_trans hrest.2 ?_⟩
    rw [hceil]
    exact max_le (le_trans hstep.2 (le_refl _)) (le_max_right _ _)

/-- Repeated ticks that each observe a poor classification: bitrate is
nonincreasing and never drops below the configured floor. -/
lemma aqTicks_poor_bitrate (cfg : StreamingConfig) (conds : List (Condition × Condition))
    (c : AQController)
    (hall : ∀ p ∈ conds, p.1 = Condition.poor ∨ p.2 = Condition.poor)
    (hsync : c.currentQuality.bitrate = c.targetQuality.bitrate)
    (hmin : 0 ≤ cfg.minBitrate)
    (hstart : cfg.minBitrate ≤ c.currentQuality.bitrate) :
    (aqTicks cfg conds c).currentQuality.bitrate ≤ c.currentQuality.bitrate ∧
    cfg.minBitrate ≤ (aqTicks cfg conds c).currentQuality.bitrate := by
  induction conds generalizing c with
  | nil => exact ⟨le_refl _, hstart⟩
  | cons p rest ih =>
    have hp := hall p (List.mem_cons_self _ _)
    have hstep := aqTick_poor_bitrate cfg p.1 p.2 c hp hsync hmin
    have hsync' := aqTick_sync cfg p.1 p.2 c hsync
    have hrest := ih (aqTick cfg p.1 p.2 c)
      (fun q hq => hall q (List.mem_cons_of_mem _ hq)) hsync'
      (hstep.2.1 hstart)
    rw [aqTicks_cons]
    exact ⟨le_trans hrest.1 hstep.1, hrest.2⟩

/-- C5: on each adaptive-quality tick of `applyAdaptiveQuality`, a tick
observing only good classifications never decreases the bitrate; a tick
observing any poor classification never increases it, clamps at the
configured floor and strictly shrinks it while above the floor; repeated
good ticks increase the bitrate never beyond the configured ceiling (or the
starting value, if that already exceeded the ceiling); repeated poor ticks
are nonincreasing and never fall below the floor. -/
theorem C5_adaptive_monotonicity
    (cfg : StreamingConfig) (c : AQController)
    (hsync : c.currentQuality.bitrate = c.targetQuality.bitrate)
    (hb0 : 0 ≤ c.currentQuality.bitrate)
    (hmin : 0 ≤ cfg.minBitrate) :
    (c.currentQuality.bitrate ≤
        (aqTick cfg Condition.good Condition.good c).currentQuality.bitrate ∧
      (aqTick cfg Condition.good Condition.good c).currentQuality.bitrate ≤
        max c.currentQuality.bitrate c.ceilingBitrate) ∧
    (∀ net enc, net = Condition.poor ∨ enc = Condition.poor →
      (aqTick cfg net enc c).currentQuality.bitrate ≤ c.currentQuality.bitrate ∧
      (cfg.minBitrate ≤ c.currentQuality.bitrate →
        cfg.minBitrate ≤ (aqTick cfg net enc c).currentQuality.bitrate) ∧
      (cfg.minBitrate < c.currentQuality.bitrate →
        (aqTick cfg net enc c).currentQuality.bitrate < c.currentQuality.bitrate)) ∧
    (∀ conds : List (Condition × Condition),
      (∀ p ∈ conds, p.1 = Condition.good ∧ p.2 = Condition.good) →
      c.currentQuality.bitrate ≤ (aqTicks cfg conds c).currentQuality.bitrate ∧
      (aqTicks cfg conds c).currentQuality.bitrate ≤
        max c.currentQuality.bitrate c.ceilingBitrate) ∧
    (∀ conds : List (Condition × Condition),
      (∀ p ∈ conds, p.1 = Condition.poor ∨ p.2 = Condition.poor) →
      cfg.minBitrate ≤ c.currentQuality.bitrate →
      (aqTicks cfg conds c).currentQuality.bitrate ≤ c.currentQuality.bitrate ∧
      cfg.minBitrate ≤ (aqTicks cfg conds c).currentQuality.bitrate) := by
  refine ⟨aqTick_good_bitrate cfg c hsync hb0,
    fun net enc hp => aqTick_poor_bitrate cfg net enc c hp hsync hmin,
    fun conds hall => aqTicks_good_bitrate cfg conds c hall hsync hb0,
    fun conds hall hstart => aqTicks_poor_bitrate cfg conds c hall hsync hmin hstart⟩

/-- Witness for C5 at the spec's scenario values: starting bitrate 3000,
floor 500, five consecutive poor ticks stay within `[500, 3000]`. -/
theorem C5_adaptive_monotonicity_witness :
    (0:ℚ) ≤ (mkAQController 3000 30).currentQuality.bitrate ∧
    ((aqTicks defaultStreamingConfig
        (List.replicate 5 (Condition.poor, Condition.poor))
        (mkAQController 3000 30)).currentQuality.bitrate ≤ 3000 ∧
      (500:ℚ) ≤ (aqTicks defaultStreamingConfig
        (List.replicate 5 (Condition.poor, Condition.poor))
        (mkAQController 3000 30)).currentQuality.bitrate) := by
  have h := C5_adaptive_monotonicity defaultStreamingConfig (mkAQController 3000 30)
    rfl (by norm_num [mkAQController]) (by norm_num [defaultStreamingConfig])
  have h4 := h.2.2.2 (List.replicate 5 (Condition.poor, Condition.poor))
    (by
      intro p hp
      rw [List.eq_of_mem_replicate hp]
      exact Or.inl rfl)
    (by norm_num [mkAQController, defaultStreamingConfig])
  refine ⟨by norm_num [mkAQController], ?_, ?_⟩
  · simpa [mkAQController] using h4.1
  · simpa [defaultStreamingConfig] using h4.2

/-! ## Stream pipeline: frame gating and the frame-processor queue
(browser-pool.js, `handleScreencastFrame` / `createFrameProcessor` /
`processFrame`) -/

/-- The per-stream counters of a stream object that `handleScreencastFrame`
touches. -/
structure StreamCounters where
  lastFrameAt : Nat
  frameCount : Nat
  droppedFrameCount : Nat
  deriving DecidableEq, Repr

/-- The per-stream frame processor (`createFrameProcessor`).  Frames are
identified by naturals.  `inFlight` models the `frameObject` local of the
`processFrame` invocation that is currently awaiting
`encoder.encodeFrame` — the source keeps it on the async stack, the
embedding makes it explicit so the single-worker discipline is statable. -/
structure FrameProcessor where
  lastFrameTimestamp : Nat
  frameInterval : ℚ
  frameQueue : List Nat
  processing : Bool
  inFlight : Option Nat
  dropped : Nat
  processed : Nat
  deriving DecidableEq, Repr

/-- Frame processor as created by `createFrameProcessor`:
`frameInterval = 1000 / frameRate`, empty queue, not processing. -/
def mkFrameProcessor (createdAt : Nat) (frameRate : ℚ) : FrameProcessor :=
  { lastFrameTimestamp := createdAt
    frameInterval := 1000 / frameRate
    frameQueue := []
    processing := false
    inFlight := none
    dropped := 0
    processed := 0 }

/-- The gating half of `handleScreencastFrame` (browser-pool.js lines
976–1002), for a frame arriving at time `now` on a live stream: the stream's
`lastFrameAt` and total `frameCount` are updated unconditionally; then the
elapsed time since `lastFrameTimestamp` is compared against `frameInterval`,
and the frame is either dropped (both dropped counters increment, the gating
timestamp does not advance) or accepted (the gating timestamp advances and
the frame goes on to `processFrame`).  Returns the updated stream counters,
the updated processor, and whether the frame was accepted. -/
def handleScreencastFrame (now : Nat) (s : StreamCounters) (fp : FrameProcessor) :
    StreamCounters × FrameProcessor × Bool :=
  let s1 := { s with lastFrameAt := now, frameCount := s.frameCount + 1 }
  if ((now : ℚ) - (fp.lastFrameTimestamp : ℚ)) < fp.frameInterval then
    ({ s1 with droppedFrameCount := s1.droppedFrameCount + 1 },
      { fp with dropped := fp.dropped + 1 }, false)
  else
    (s1, { fp with lastFrameTimestamp := now }, true)

/-- Folding a list of raw-frame arrival times through the gate; returns the
final state and the accepted arrival times in order. -/
def runFrames (s : StreamCounters) (fp : FrameProcessor) :
    List Nat → StreamCounters × FrameProcessor × List Nat
  | [] => (s, fp, [])
  | t :: ts =>
    let r := handleScreencastFrame t s fp
    let rest := runFrames r.1 r.2.1 ts
    (rest.1, rest.2.1, if r.2.2 then t :: rest.2.2 else rest.2.2)

/-- The queue discipline of `processFrame` (browser-pool.js lines
1782–1841): a frame arriving while the processor is mid-encode is appended
to `frameQueue` (`frameQueue.push`); otherwise the processing flag is set
and the frame is handed to the encoder. -/
def processFrameArrival (f : Nat) (fp : FrameProcessor) : FrameProcessor :=
  if fp.processing then { fp with frameQueue := fp.frameQueue ++ [f] }
  else { fp with processing := true, inFlight := some f }

/-- What happens when the awaited `encoder.encodeFrame` call returns:
`processed` increments; if the queue is nonempty its head is shifted and
dispatched immediately (`setImmediate` re-enters `processFrame` right after
the `finally` clears the flag), otherwise the processor goes idle. -/
def encodeComplete (fp : FrameProcessor) : FrameProcessor :=
  match fp.frameQueue with
  | [] => { fp with processing := false, inFlight := none, processed := fp.processed + 1 }
  | f :: rest =>
    { fp with frameQueue := rest, inFlight := some f, processed := fp.processed + 1 }

/-- The accepted-arrival-times recursion underlying the gate: starting from
gating timestamp `last`, a frame at `t` is accepted exactly when
`t - last ≥ g`, and acceptance advances the timestamp to `t`. -/
def acceptTimes (g : ℚ) (last : Nat) : List Nat → List Nat
  | [] => []
  | t :: ts =>
    if ((t : ℚ) - (last : ℚ)) < g then acceptTimes g last ts
    else t :: acceptTimes g t ts

/-- Separation relation between two accepted arrival times. -/
def sepBy (g : ℚ) (a b : Nat) : Prop := g ≤ (b : ℚ) - (a : ℚ)

/-- The accepted output of the full gate fold is `acceptTimes` of the
processor's interval and gating timestamp. -/
lemma runFrames_accepted_eq (ts : List Nat) :
    ∀ (s : StreamCounters) (fp : FrameProcessor),
      (runFrames s fp ts).2.2 = acceptTimes fp.frameInterval fp.lastFrameTimestamp ts := by
  induction ts with
  | nil => intro s fp; rfl
  | cons t ts ih =>
    intro s fp
    by_cases hcond : ((t : ℚ) - (fp.lastFrameTimestamp : ℚ)) < fp.frameInterval
    · simp [runFrames, handleScreencastFrame, hcond, acceptTimes, ih]
    · simp [runFrames, handleScreencastFrame, hcond, acceptTimes, ih]

/-- Consecutive entries of `acceptTimes` are separated by at least `g`, and
the first is at least `g` after the starting timestamp. -/
lemma acceptTimes_chain (g : ℚ) (ts : List Nat) :
    ∀ last, List.Chain' (sepBy g) (acceptTimes g last ts) ∧
      (∀ x ∈ (acceptTimes g last ts).head?, sepBy g last x) := by
  induction ts with
  | nil => intro last; exact ⟨List.chain'_nil, by simp [acceptTimes]⟩
  | cons t ts ih =>
    intro last
    by_cases hcond : ((t : ℚ) - (last : ℚ)) < g
    · simpa only [acceptTimes, hcond, if_true] using ih last
    · simp only [acceptTimes, hcond, if_false]
      refine ⟨List.chain'_cons'.mpr ⟨(ih t).2, (ih t).1⟩, ?_⟩
      intro x hx
      simp only [List.head?_cons, Option.mem_def, Option.some.injEq] at hx
      subst hx
      exact le_of_not_lt hcond

/-- Telescoping the separation along the accepted list: the `j`-th accepted
frame is at least `(j - i) * g` milliseconds after the `i`-th. -/
lemma chain_sep_telescope (g : ℚ) (l : List Nat)
    (hc : List.Chain' (sepBy g) l) :
    ∀ i j (hij : i ≤ j) (hj : j < l.length),
      ((j - i : ℕ) : ℚ) * g ≤
        (l.get ⟨j, hj⟩ : ℚ) - (l.get ⟨i, lt_of_le_of_lt hij hj⟩ : ℚ) := by
  intro i j hij
  induction j, hij using Nat.le_induction with
  | base => intro hj; simp
  | succ j hij ihj =>
    intro hj
    have hj' : j < l.length := by omega
    have hstep : sepBy g (l.get ⟨j, hj'⟩) (l.get ⟨j + 1, hj⟩) := by
      rw [List.chain'_iff_get] at hc
      exact hc j (by omega)
    have hsub : (j + 1 - i : ℕ) = (j - i : ℕ) + 1 := by omega
    rw [hsub]
    unfold sepBy at hstep
    push_cast
    have := ihj hj'
    linarith

/-- A frame processor that is mid-encode: the flag is set and one frame is
with the encoder, queue empty. -/
def busyProcessor : FrameProcessor :=
  { lastFrameTimestamp := 0
    frameInterval := 1000 / 30
    frameQueue := []
    processing := true
    inFlight := some 10
    dropped := 0
    processed := 0 }

/-- C2 counterexample: with an encode in flight, two further arrivals leave
the pending queue holding TWO frames (the source `push`es onto an unbounded
array), and the encode that completes next dispatches the FIRST of them, not
the latest — refuting the single-slot latest-wins queue of the claim. -/
theorem C2_counterexample :
    (processFrameArrival 2 (processFrameArrival 1 busyProcessor)).frameQueue = [1, 2] ∧
    (processFrameArrival 2 (processFrameArrival 1 busyProcessor)).frameQueue.length ≠ 1 ∧
    (encodeComplete (processFrameArrival 2 (processFrameArrival 1 busyProcessor))).inFlight =
      some 1 := by
  refine ⟨rfl, by decide, rfl⟩

/-- C2 (amended): a frame arriving while the pipeline is mid-encode for the
stream is appended to an unbounded FIFO queue (a second arrival while one is
queued is appended behind it, not a replacement); a frame arriving while
idle immediately becomes the single in-flight encode; when the in-flight
encode completes, the head of the queue (the oldest pending frame) is
dispatched immediately and becomes the new single in-flight frame, so
encode concurrency per stream stays at most one. -/
theorem C2_frame_queue_discipline (fp : FrameProcessor) (f : Nat) :
    (fp.processing = true →
      processFrameArrival f fp = { fp with frameQueue := fp.frameQueue ++ [f] }) ∧
    (fp.processing = false →
      processFrameArrival f fp = { fp with processing := true, inFlight := some f }) ∧
    (∀ g rest, fp.frameQueue = g :: rest →
      encodeComplete fp =
        { fp with
            frameQueue := rest, inFlight := some g,
            processed := fp.processed + 1 }) ∧
    (fp.frameQueue = [] →
      encodeComplete fp =
        { fp with
            processing := false, inFlight := none,
            processed := fp.processed + 1 }) := by
  refine ⟨fun h => ?_, fun h => ?_, fun g rest h => ?_, fun h => ?_⟩
  · unfold processFrameArrival; rw [h]; simp
  · unfold processFrameArrival; rw [h]; simp
  · unfold encodeComplete; rw [h]
  · unfold encodeComplete; rw [h]

/-- Witness for C2 (amended) at the busy processor. -/
theorem C2_frame_queue_discipline_witness :
    busyProcessor.processing = true ∧
    processFrameArrival 7 busyProcessor =
      { busyProcessor with frameQueue := busyProcessor.frameQueue ++ [7] } :=
  ⟨rfl, (C2_frame_queue_discipline busyProcessor 7).1 rfl⟩

/-- C3 counterexample: a frame arriving 10 ms after the last accepted frame
(interval `1000/30` at 30 fps) is dropped and the dropped counter
increments, but — contrary to the claim's "no other state changes" — the
stream's total `frameCount` and `lastFrameAt` are updated too. -/
theorem C3_counterexample :
    (handleScreencastFrame 1010 ⟨1000, 0, 0⟩ (mkFrameProcessor 1000 30)).2.2 = false ∧
    (handleScreencastFrame 1010 ⟨1000, 0, 0⟩ (mkFrameProcessor 1000 30)).1.droppedFrameCount
      = 1 ∧
    (handleScreencastFrame 1010 ⟨1000, 0, 0⟩ (mkFrameProcessor 1000 30)).1.frameCount ≠
      (⟨1000, 0, 0⟩ : StreamCounters).frameCount ∧
    (handleScreencastFrame 1010 ⟨1000, 0, 0⟩ (mkFrameProcessor 1000 30)).1.lastFrameAt ≠
      (⟨1000, 0, 0⟩ : StreamCounters).lastFrameAt := by
  refine ⟨?_, ?_, ?_, ?_⟩ <;>
    norm_num [handleScreencastFrame, mkFrameProcessor]

/-- C3 (amended): on each raw-frame event the elapsed time since the last
accepted frame is compared with `1000/F` ms; a too-early frame is dropped —
the dropped counters increment, the stream's total frame counter and
last-frame timestamp are also refreshed, and the gating timestamp does not
advance.  Consequently, for any run of arrivals, any two accepted frames
within 1000 ms of each other are at most `F` positions apart, so a 1-second
window holds at most `F + 1` accepted frames. -/
theorem C3_frame_rate_gating (F : ℕ) (hF : 0 < F)
    (s : StreamCounters) (fp : FrameProcessor)
    (hfi : fp.frameInterval = 1000 / (F : ℚ)) :
    (∀ now : Nat, ((now : ℚ) - (fp.lastFrameTimestamp : ℚ)) < fp.frameInterval →
      handleScreencastFrame now s fp =
        ({ lastFrameAt := now, frameCount := s.frameCount + 1,
           droppedFrameCount := s.droppedFrameCount + 1 },
         { fp with dropped := fp.dropped + 1 }, false)) ∧
    (∀ ts : List Nat, ∀ i j, ∀ hij : i ≤ j,
      ∀ hj : j < (runFrames s fp ts).2.2.length,
      ((runFrames s fp ts).2.2.get ⟨j, hj⟩ : ℚ) -
        ((runFrames s fp ts).2.2.get ⟨i, lt_of_le_of_lt hij hj⟩ : ℚ) ≤ 1000 →
      j - i ≤ F) := by
  have hF' : (0 : ℚ) < (F : ℚ) := by exact_mod_cast hF
  constructor
  · intro now hcond
    unfold handleScreencastFrame
    rw [if_pos hcond]
  · intro ts i j hij hj hwin
    have hchain : List.Chain' (sepBy fp.frameInterval) ((runFrames s fp ts).2.2) := by
      rw [runFrames_accepted_eq]
      exact (acceptTimes_chain fp.frameInterval ts fp.lastFrameTimestamp).1
    have htel := chain_sep_telescope fp.frameInterval _ hchain i j hij hj
    rw [hfi] at htel
    have hmul : ((j - i : ℕ) : ℚ) * (1000 / (F : ℚ)) ≤ 1000 := le_trans htel hwin
    have hle : ((j - i : ℕ) : ℚ) ≤ (F : ℚ) := by
      rw [← mul_div_assoc] at hmul
      rw [div_le_iff₀ hF'] at hmul
      linarith
    exact_mod_cast hle

/-- Witness for C3 (amended) at `F = 30`: the drop equation applied to a
concrete too-early arrival, and the window bound applied to a concrete
arrival burst. -/
theorem C3_frame_rate_gating_witness :
    (0 < 30) ∧
    (handleScreencastFrame 1010 ⟨1000, 0, 0⟩ (mkFrameProcessor 1000 30) =
      ({ lastFrameAt := 1010, frameCount := 1, droppedFrameCount := 1 },
       { mkFrameProcessor 1000 30 with dropped := 1 }, false)) := by
  have h := C3_frame_rate_gating 30 (by norm_num) ⟨1000, 0, 0⟩ (mkFrameProcessor 1000 30)
    (by norm_num [mkFrameProcessor])
  exact ⟨by norm_num, h.1 1010 (by norm_num [mkFrameProcessor])⟩

/-! ## CUDA encoder fallback chain (services/cuda-encoder.js) -/

/-- The fixed ordered fallback chain `STREAMING_CONFIG.encodingStrategies`. -/
def encodingStrategies : List String :=
  ["cuda_h264", "cuda_hevc", "cpu_h264", "cpu_hevc", "mjpeg"]

/-- One encoder entry of `this.encoders` in `CUDAEncoder` (the fields the
fallback logic reads and writes). -/
structure Encoder where
  id : Nat
  strategy : String
  active : Bool
  framesEncoded : Nat
  deriving DecidableEq, Repr

/-- The encoder registry, as a partial map from encoder id to entry. -/
structure EncoderState where
  encoders : Nat → Option Encoder

/-- Map update for the encoder registry (`this.encoders.set`). -/
def setEncoder (eid : Nat) (e : Encoder) (st : EncoderState) : EncoderState :=
  { encoders := fun k => if k = eid then some e else st.encoders k }

/-- `createEncoder`: if the id is already registered, return the stored
entry unchanged; otherwise register a fresh inactive entry with the
requested strategy. -/
def createEncoder (eid : Nat) (strategy : String) (st : EncoderState) :
    Encoder × EncoderState :=
  match st.encoders eid with
  | some e => (e, st)
  | none =>
    let e : Encoder := { id := eid, strategy := strategy, active := false, framesEncoded := 0 }
    (e, setEncoder eid e st)

/-- `startEncoder`: spawns the external ffmpeg process.  `spawnOk` is the
environment's answer to the spawn attempt; on success the entry becomes
active, on failure the catch block leaves it inactive and returns false.
A missing id returns false, an already-active encoder returns true. -/
def startEncoder (spawnOk : Bool) (eid : Nat) (st : EncoderState) : Bool × EncoderState :=
  match st.encoders eid with
  | none => (false, st)
  | some e =>
    if e.active then (true, st)
    else if spawnOk then (true, setEncoder eid { e with active := true } st)
    else (false, setEncoder eid { e with active := false } st)

/-- `tryFallbackStrategy` (cuda-encoder.js lines 492–526): look up the
current strategy's position in the chain; if it is absent or already the
last entry, log and return false without touching anything; otherwise
overwrite the encoder's strategy with the next entry and restart via
`startEncoder`. -/
def tryFallbackStrategy (spawnOk : Bool) (eid : Nat) (st : EncoderState) :
    Bool × EncoderState :=
  match st.encoders eid with
  | none => (false, st)
  | some e =>
    match encodingStrategies.findIdx? (fun x => x = e.strategy) with
    | none => (false, st)
    | some k =>
      if k = encodingStrategies.length - 1 then (false, st)
      else
        let next := encodingStrategies.getD (k + 1) ""
        startEncoder spawnOk eid (setEncoder eid { e with strategy := next } st)

/-- `handleEncoderClosed`: on any close the entry goes inactive; on a
non-zero exit code the fallback is attempted. -/
def handleEncoderClosed (spawnOk : Bool) (eid : Nat) (code : Int) (st : EncoderState) :
    EncoderState :=
  match st.encoders eid with
  | none => st
  | some e =>
    let st1 := setEncoder eid { e with active := false } st
    if code ≠ 0 then (tryFallbackStrategy spawnOk eid st1).2 else st1

/-- A registry holding one encoder whose active strategy is the final chain
entry (mjpeg), as left behind by four earlier fallbacks. -/
def exhaustedEncoderState : EncoderState :=
  { encoders := fun k =>
      if k = 1 then some { id := 1, strategy := "mjpeg", active := false, framesEncoded := 0 }
      else none }

/-- `startEncoder` never changes the strategy of a registered encoder. -/
lemma startEncoder_strategy (spawnOk : Bool) (eid : Nat) (st : EncoderState) (e : Encoder)
    (he : st.encoders eid = some e) :
    ∃ e', (startEncoder spawnOk eid st).2.encoders eid = some e' ∧
      e'.strategy = e.strategy := by
  unfold startEncoder
  rw [he]
  by_cases ha : e.active
  · exact ⟨e, by simp [ha, he]⟩
  · by_cases hs : spawnOk
    · exact ⟨{ e with active := true }, by simp [ha, hs, setEncoder]⟩
    · exact ⟨{ e with active := false }, by simp [ha, hs, setEncoder]⟩

/-- The strategy one past position `k` in the chain sits at position
`k + 1` (the chain entries are pairwise distinct). -/
lemma strategies_next_idx (k : Nat) (hk : k + 1 < encodingStrategies.length) :
    encodingStrategies.findIdx? (fun x => x = encodingStrategies.getD (k + 1) "") =
      some (k + 1) := by
  have hk4 : k < 4 := by
    simp only [encodingStrategies, List.length_cons, List.length_nil] at hk
    omega
  interval_cases k <;> rfl

/-- C4 counterexample: with the active strategy already at the final chain
entry (`mjpeg`), a fatal close (non-zero exit) leaves the registry exactly
as it was — `tryFallbackStrategy` returns false without marking the encoder
permanently failed, and no stream transition of any kind is performed (the
function never touches stream state; no `encoder_exhausted` reason exists in
the source). -/
theorem C4_counterexample :
    tryFallbackStrategy true 1 exhaustedEncoderState = (false, exhaustedEncoderState) ∧
    (handleEncoderClosed true 1 1 exhaustedEncoderState).encoders 1 =
      some { id := 1, strategy := "mjpeg", active := false, framesEncoded := 0 } := by
  exact ⟨rfl, rfl⟩

/-- C4 (amended): on a fatal encoder failure while the active strategy is
entry `k` of the fixed fallback chain, `tryFallbackStrategy` sets the active
strategy to exactly entry `k + 1` (never backward: the new strategy's chain
position is `k + 1`); but when the active strategy is the final entry, the
call returns false and leaves the state untouched — the encoder is not
marked permanently failed and the owning stream is not transitioned (no
`encoder_exhausted` close reason exists). -/
theorem C4_fallback_forward (spawnOk : Bool) (eid : Nat) (st : EncoderState) (e : Encoder)
    (he : st.encoders eid = some e) :
    (∀ k, encodingStrategies.findIdx? (fun x => x = e.strategy) = some k →
      k + 1 < encodingStrategies.length →
      ∃ e', (tryFallbackStrategy spawnOk eid st).2.encoders eid = some e' ∧
        e'.strategy = encodingStrategies.getD (k + 1) "" ∧
        encodingStrategies.findIdx? (fun x => x = e'.strategy) = some (k + 1)) ∧
    (encodingStrategies.findIdx? (fun x => x = e.strategy) =
        some (encodingStrategies.length - 1) →
      tryFallbackStrategy spawnOk eid st = (false, st)) := by
  constructor
  · intro k hfind hklt
    have hkne : k ≠ encodingStrategies.length - 1 := by
      simp only [encodingStrategies] at hklt ⊢
      omega
    simp only [tryFallbackStrategy, he, hfind]
    rw [if_neg hkne]
    have hset : (setEncoder eid { e with strategy := encodingStrategies.getD (k + 1) "" }
        st).encoders eid = some { e with strategy := encodingStrategies.getD (k + 1) "" } := by
      simp [setEncoder]
    obtain ⟨e', he', hstrat⟩ := startEncoder_strategy spawnOk eid _ _ hset
    exact ⟨e', he', by rw [hstrat], by rw [hstrat]; exact strategies_next_idx k hklt⟩
  · intro hlast
    simp only [tryFallbackStrategy, he, hlast]
    simp

/-- A registry holding one encoder at the head of the chain. -/
def headEncoderState : EncoderState :=
  { encoders := fun k =>
      if k = 1 then some { id := 1, strategy := "cuda_h264", active := false, framesEncoded := 0 }
      else none }

/-- Witness for C4 (amended): an encoder at chain entry 0 (`cuda_h264`)
falls forward to entry 1 (`cuda_hevc`). -/
theorem C4_fallback_forward_witness :
    headEncoderState.encoders 1 =
      some { id := 1, strategy := "cuda_h264", active := false, framesEncoded := 0 } ∧
    ∃ e', (tryFallbackStrategy true 1 headEncoderState).2.encoders 1 = some e' ∧
      e'.strategy = encodingStrategies.getD 1 "" ∧
      encodingStrategies.findIdx? (fun x => x = e'.strategy) = some 1 := by
  refine ⟨rfl, ?_⟩
  exact (C4_fallback_forward true 1 headEncoderState _ rfl).1 0 rfl (by decide)

/-! ## WebRTC service (services/webrtc-service.js) -/

/-- Connection statistics tracked per WebRTC connection. -/
structure RTCStats where
  bytesSent : Nat
  bytesReceived : Nat
  packetsLost : Nat
  roundTripTime : ℚ
  jitter : ℚ
  deriving DecidableEq, Repr

/-- One entry of `this.connections` (the fields the service's control flow
reads and writes; the peer-connection object itself is external). -/
structure Connection where
  id : Nat
  active : Bool
  stats : RTCStats
  deriving DecidableEq, Repr

/-- WebRTC service state: `wrtcAvailable` is false when the native module
failed to load in the constructor (`this.wrtc = null`). -/
structure WebRTCState where
  wrtcAvailable : Bool
  connections : Nat → Option Connection

/-- Map update for the connection registry. -/
def setConnection (cid : Nat) (c : Connection) (st : WebRTCState) : WebRTCState :=
  { st with connections := fun k => if k = cid then some c else st.connections k }

/-- `createConnection` (webrtc-service.js lines 63–155): an existing id
returns the stored connection; otherwise, when the native module is
unavailable, the guard `if (!this.wrtc)` THROWS `wrtc module not available`
(there is no degraded fallback in this file); otherwise a fresh active
connection is registered. -/
def createConnection (cid : Nat) (st : WebRTCState) :
    Except String (Connection × WebRTCState) :=
  match st.connections cid with
  | some c => .ok (c, st)
  | none =>
    if !st.wrtcAvailable then .error "wrtc module not available"
    else
      let c : Connection :=
        { id := cid, active := true
          stats := { bytesSent := 0, bytesReceived := 0, packetsLost := 0,
                     roundTripTime := 0, jitter := 0 } }
      .ok (c, setConnection cid c st)

/-- `sendVideoFrame` (webrtc-service.js lines 309–342): missing or inactive
connection, or missing native module, reports `false` without throwing; a
successful send adds the frame length to `bytesSent`. -/
def sendVideoFrame (cid : Nat) (frameLen : Nat) (st : WebRTCState) : Bool × WebRTCState :=
  match st.connections cid with
  | none => (false, st)
  | some c =>
    if !c.active then (false, st)
    else if !st.wrtcAvailable then (false, st)
    else
      (true, setConnection cid
        { c with stats := { c.stats with bytesSent := c.stats.bytesSent + frameLen } } st)

/-- `getConnectionStats`: `null` for an unknown id, otherwise a snapshot of
the stored counters. -/
def getConnectionStats (cid : Nat) (st : WebRTCState) : Option RTCStats :=
  (st.connections cid).map Connection.stats

/-- `closeConnection`: a missing id returns false and changes nothing;
otherwise the connection is deactivated and removed. -/
def closeConnection (cid : Nat) (st : WebRTCState) : Bool × WebRTCState :=
  match st.connections cid with
  | none => (false, st)
  | some _ =>
    (true, { st with connections := fun k => if k = cid then none else st.connections k })

/-- The service state after the native WebRTC library failed to load, with
no connections. -/
def noWrtcState : WebRTCState := { wrtcAvailable := false, connections := fun _ => none }

/-- C6 at the failing input: with the native library unavailable,
`sendVideoFrame`, `getConnectionStats` and `closeConnection` do degrade to
non-throwing failure results — but `createConnection` THROWS
`wrtc module not available`, so opening a channel (and hence stream
creation, which awaits it without catching) fails instead of entering a
degraded send-nothing mode. -/
theorem C6_degraded_transport :
    createConnection 1 noWrtcState = .error "wrtc module not available" ∧
    sendVideoFrame 1 5 noWrtcState = (false, noWrtcState) ∧
    getConnectionStats 1 noWrtcState = none ∧
    closeConnection 1 noWrtcState = (false, noWrtcState) :=
  ⟨rfl, rfl, rfl, rfl⟩

/-! ## Browser pool (core/browser-pool.js)

Pool operations pass the state explicitly and return it next to the result;
a thrown error is `Except.error` in the result slot with the state mutated
exactly as far as the source had mutated it before throwing. -/

/-- Error taxonomy of `utils/error-handler.js` as far as the pool and the
session registry use it. -/
inductive OpError where
  | resourceLimit
  | notFound
  deriving DecidableEq, Repr

/-- One entry of `this.browsers`: the custom properties `createdAt` and
`pagesCreated` the pool attaches, plus what the pool reads from the
external browser object — `livePages` is `(await browser.pages()).length`
and `hasProcess` is whether `browser.process()` is non-null. -/
structure Browser where
  id : Nat
  createdAt : Nat
  pagesCreated : Nat
  livePages : Nat
  hasProcess : Bool
  deriving DecidableEq, Repr

/-- One entry of `this.pages` (the fields the pool's control flow uses). -/
structure PageInfo where
  id : Nat
  browserId : Nat
  screencastRunning : Bool
  deriving DecidableEq, Repr

/-- Pool state: both registries in `Map` insertion order. -/
structure PoolState where
  browsers : List Browser
  pages : List PageInfo
  deriving DecidableEq, Repr

/-- The empty pool. -/
def emptyPool : PoolState := { browsers := [], pages := [] }

/-- Lookup of `this.browsers.get(browserId)`. -/
def findBrowser (st : PoolState) (bid : Nat) : Option Browser :=
  st.browsers.find? (fun b => b.id = bid)

/-- Lookup of `this.pages.get(pageId)`. -/
def findPage (st : PoolState) (pid : Nat) : Option PageInfo :=
  st.pages.find? (fun p => p.id = pid)

/-- `createBrowser` (browser-pool.js lines 114–170): the cap check comes
FIRST and throws `ResourceLimitError` at the cap even for an id that is
already registered; an existing id is then returned unchanged; otherwise
the external engine is launched and a fresh entry is stored (with the
engine's initial page count). -/
def createBrowser (cfg : BrowserConfig) (bid now : Nat) (st : PoolState) :
    PoolState × Except OpError Nat :=
  if cfg.maxBrowsers ≤ st.browsers.length then (st, .error .resourceLimit)
  else
    match findBrowser st bid with
    | some _ => (st, .ok bid)
    | none =>
      ({ st with browsers := st.browsers ++
          [{ id := bid, createdAt := now, pagesCreated := 0,
             livePages := cfg.initialPages, hasProcess := true }] },
       .ok bid)

/-- The least-loaded scan of `getOrCreateBrowser` (browser-pool.js lines
193–204): walk the registry in insertion order keeping the browser with the
fewest live pages among those strictly under the per-instance cap
(`minPages` starts at `Infinity`, modelled by the `none` accumulator). -/
def findBest (cap : Nat) (acc : Option (Nat × Nat)) : List Browser → Option (Nat × Nat)
  | [] => acc
  | b :: rest =>
    let pc := b.livePages
    let acc' :=
      match acc with
      | none => if pc < cap then some (b.id, pc) else none
      | some (bid0, minp) =>
        if pc < minp ∧ pc < cap then some (b.id, pc) else some (bid0, minp)
    findBest cap acc' rest

/-- `getOrCreateBrowser` (browser-pool.js lines 186–217): an empty registry
launches a browser; otherwise the least-loaded browser strictly under the
page cap is reused; if none qualifies a new browser is launched (which can
throw at the global cap). -/
def getOrCreateBrowser (cfg : BrowserConfig) (bid now : Nat) (st : PoolState) :
    PoolState × Except OpError Nat :=
  if st.browsers.length = 0 then createBrowser cfg bid now st
  else
    match findBest cfg.maxPagesPerBrowser none st.browsers with
    | some best => (st, .ok best.1)
    | none => createBrowser cfg bid now st

/-- Update the (unique) registry entry with the given id. -/
def updateBrowser (bid : Nat) (f : Browser → Browser) (st : PoolState) : PoolState :=
  { st with browsers := st.browsers.map (fun b => if b.id = bid then f b else b) }

/-- The effect of `browser.newPage()` plus `browser.pagesCreated++` on the
target browser's entry. -/
def pageIncr (b : Browser) : Browser :=
  { b with livePages := b.livePages + 1, pagesCreated := b.pagesCreated + 1 }

/-- `createPage` (browser-pool.js lines 224–299): FIRST resolve a target
browser via `getOrCreateBrowser` (possibly launching one), THEN check
whether the page id already exists — an existing id returns the stored page
info with the browser launch already performed; otherwise `newPage` runs on
the target browser (one more live page), `pagesCreated` increments, and the
page entry is stored. -/
def createPage (cfg : BrowserConfig) (pid bid now : Nat) (st : PoolState) :
    PoolState × Except OpError Nat :=
  match getOrCreateBrowser cfg bid now st with
  | (st1, .error e) => (st1, .error e)
  | (st1, .ok target) =>
    match findPage st1 pid with
    | some p => (st1, .ok p.id)
    | none =>
      let st2 := updateBrowser target pageIncr st1
      ({ st2 with pages := st2.pages ++
          [{ id := pid, browserId := target, screencastRunning := false }] },
       .ok pid)

/-- `stopScreencast`: a missing page returns false; a page with no running
screencast returns true; otherwise the flag is cleared. -/
def stopScreencast (pid : Nat) (st : PoolState) : PoolState × Bool :=
  match findPage st pid with
  | none => (st, false)
  | some p =>
    if !p.screencastRunning then (st, true)
    else
      ({ st with pages := st.pages.map (fun q => if q.id = pid then { q with screencastRunning := false } else q) },
       true)

/-- `closePage` (browser-pool.js lines 495–535): a missing page logs a
warning and returns false with nothing changed; otherwise the screencast is
stopped if running, the engine page is closed (one fewer live page on the
owning browser) and the entry is removed. -/
def closePage (pid : Nat) (st : PoolState) : PoolState × Bool :=
  match findPage st pid with
  | none => (st, false)
  | some p =>
    let st1 := (stopScreencast pid st).1
    let st2 := updateBrowser p.browserId (fun b => { b with livePages := b.livePages - 1 }) st1
    ({ st2 with pages := st2.pages.filter (fun q => q.id ≠ pid) }, true)

/-- `closeBrowser` (browser-pool.js lines 542–588): a missing browser
returns false; otherwise every page owned by the browser is closed via
`closePage` and the browser entry is removed. -/
def closeBrowser (bid : Nat) (st : PoolState) : PoolState × Bool :=
  match findBrowser st bid with
  | none => (st, false)
  | some _ =>
    let pids := (st.pages.filter (fun p => p.browserId = bid)).map PageInfo.id
    let st1 := pids.foldl (fun s q => (closePage q s).1) st
    ({ st1 with browsers := st1.browsers.filter (fun b => b.id ≠ bid) }, true)

/-- `restartBrowser` (browser-pool.js lines 595–625): a missing browser
returns null; otherwise the browser is closed and relaunched under the SAME
id; a launch failure propagates with the close already performed. -/
def restartBrowser (cfg : BrowserConfig) (bid now : Nat) (st : PoolState) :
    PoolState × Except OpError (Option Nat) :=
  match findBrowser st bid with
  | none => (st, .ok none)
  | some _ =>
    let st1 := (closeBrowser bid st).1
    match createBrowser cfg bid now st1 with
    | (st2, .ok b) => (st2, .ok (some b))
    | (st2, .error e) => (st2, .error e)

/-- The idle test of `monitorMemoryUsage` line 91: the source reads
`browser.pages().length === 0` WITHOUT awaiting — `browser.pages()` is a
Promise, a Promise has no `length` property, so the comparison is
`undefined === 0`, which is `false` for every browser regardless of its
actual page count. -/
def pagesLengthIsZeroUnawaited (_ : Browser) : Bool := false

/-- One browser's iteration of `monitorMemoryUsage` (browser-pool.js lines
77–103): skip a browser with no process; close it when the unawaited idle
test fires (it never does); restart it when `pagesCreated` reaches
`restartBrowserAfterPages` or its age reaches `restartBrowserAfterTime`;
errors from the restart are caught and logged, keeping the state reached so
far. -/
def monitorBrowserStep (cfg : BrowserConfig) (now : Nat) (st : PoolState) (bid : Nat) :
    PoolState :=
  match findBrowser st bid with
  | none => st
  | some b =>
    if !b.hasProcess then st
    else if pagesLengthIsZeroUnawaited b then (closeBrowser bid st).1
    else if cfg.restartBrowserAfterPages ≤ b.pagesCreated then
      (restartBrowser cfg bid now st).1
    else if cfg.restartBrowserAfterTime ≤ now - b.createdAt then
      (restartBrowser cfg bid now st).1
    else st

/-- The full `monitorMemoryUsage` tick over the registry ids. -/
def monitorMemoryUsage (cfg : BrowserConfig) (now : Nat) (st : PoolState) : PoolState :=
  (st.browsers.map Browser.id).foldl (monitorBrowserStep cfg now) st

/-! ## Session manager (core/session-manager.js) -/

/-- `SESSION_CONFIG`: session cap and timeout (in minutes, as config.js
stores it; the comparisons multiply by `60 * 1000`). -/
structure SessionConfig where
  maxConcurrentSessions : Nat
  sessionTimeout : Nat
  deriving DecidableEq, Repr

/-- Defaults from `utils/config.js`: 2 concurrent sessions, 5 minutes. -/
def defaultSessionConfig : SessionConfig := { maxConcurrentSessions := 2, sessionTimeout := 5 }

/-- One entry of `this.sessions` (the fields the manager's control flow
reads and writes). -/
structure Session where
  id : Nat
  createdAt : Nat
  lastActivityAt : Nat
  pageId : Option Nat
  status : String
  deriving DecidableEq, Repr

/-- Session manager state: the session registry in insertion order and the
set of session ids holding a pending timeout handle. -/
structure SMState where
  sessions : List (Nat × Session)
  timeouts : List Nat
  deriving DecidableEq, Repr

/-- `clearSessionTimeout`: drop the pending handle, if any. -/
def clearSessionTimeout (sid : Nat) (st : SMState) : SMState :=
  { st with timeouts := st.timeouts.filter (fun x => x ≠ sid) }

/-- `resetSessionTimeout`: clear any pending handle and arm a fresh one. -/
def resetSessionTimeout (sid : Nat) (st : SMState) : SMState :=
  let st1 := clearSessionTimeout sid st
  { st1 with timeouts := sid :: st1.timeouts }

/-- `createSession` (session-manager.js lines 107–161): the cap check comes
first and throws `ResourceLimitError`; an existing id is then returned
unchanged; otherwise a fresh session is stored and its timeout armed. -/
def createSession (cfg : SessionConfig) (sid now : Nat) (st : SMState) :
    SMState × Except OpError Session :=
  if cfg.maxConcurrentSessions ≤ st.sessions.length then (st, .error .resourceLimit)
  else
    match st.sessions.lookup sid with
    | some s => (st, .ok s)
    | none =>
      let s : Session :=
        { id := sid, createdAt := now, lastActivityAt := now,
          pageId := none, status := "created" }
      (resetSessionTimeout sid { st with sessions := st.sessions ++ [(sid, s)] }, .ok s)

/-- `getSession` (session-manager.js lines 168–183): a hit refreshes
`lastActivityAt` and re-arms the timeout (the TTL refresh on activity). -/
def getSession (sid now : Nat) (st : SMState) : SMState × Option Session :=
  match st.sessions.lookup sid with
  | none => (st, none)
  | some s =>
    let s' := { s with lastActivityAt := now }
    let st1 :=
      { st with sessions := st.sessions.map (fun p => if p.1 = sid then (sid, s') else p) }
    (resetSessionTimeout sid st1, some s')

/-- `closeSession` (session-manager.js lines 258–306): a missing id logs a
warning and returns false with nothing changed; otherwise the status flips
to closing (invisible once the entry is removed below), the timeout is
cleared, the bound page (if any) is closed through the pool, and the entry
is removed. -/
def closeSession (sid : Nat) (st : SMState) (pool : PoolState) :
    (SMState × PoolState) × Bool :=
  match st.sessions.lookup sid with
  | none => ((st, pool), false)
  | some s =>
    let st1 := clearSessionTimeout sid st
    let pool1 :=
      match s.pageId with
      | some pid => (closePage pid pool).1
      | none => pool
    (({ st1 with sessions := st1.sessions.filter (fun p => p.1 ≠ sid) }, pool1), true)

/-- The expiry test of `cleanupExpiredSessions` (session-manager.js lines
75–84): a session is expired when EITHER its absolute age since `createdAt`
OR its inactivity since `lastActivityAt` strictly exceeds
`sessionTimeout * 60 * 1000` ms. -/
def sessionExpired (cfg : SessionConfig) (now : Nat) (s : Session) : Bool :=
  decide (cfg.sessionTimeout * 60 * 1000 < now - s.createdAt) ||
  decide (cfg.sessionTimeout * 60 * 1000 < now - s.lastActivityAt)

/-- `cleanupExpiredSessions`: collect the expired ids, then close each. -/
def cleanupExpiredSessions (cfg : SessionConfig) (now : Nat) (st : SMState)
    (pool : PoolState) : SMState × PoolState :=
  let expired := (st.sessions.filter (fun p => sessionExpired cfg now p.2)).map Prod.fst
  expired.foldl (fun acc sid => (closeSession sid acc.1 acc.2).1) (st, pool)

/-! ## Streaming engine stream teardown (browser-pool.js, `closeStream`) -/

/-- One entry of the engine's `this.streams` (the fields `closeStream`
reads). -/
structure StreamData where
  pageId : Nat
  active : Bool
  deriving DecidableEq, Repr

/-- Streaming engine state: streams, per-stream frame processors and
adaptive-quality controllers. -/
structure EngineState where
  streams : List (Nat × StreamData)
  frameProcessors : Nat → Option FrameProcessor
  controllers : Nat → Option AQController

/-- `stopEncoder`: a missing id returns false; otherwise the worker is
killed and the entry goes inactive. -/
def stopEncoder (eid : Nat) (st : EncoderState) : EncoderState × Bool :=
  match st.encoders eid with
  | none => (st, false)
  | some e =>
    if !e.active then (st, true)
    else (setEncoder eid { e with active := false } st, true)

/-- `destroyEncoder` (basic-encoder.js lines 200–217): stop, then remove
the entry. -/
def destroyEncoder (eid : Nat) (st : EncoderState) : EncoderState :=
  let st1 := (stopEncoder eid st).1
  { encoders := fun k => if k = eid then none else st1.encoders k }

/-- `closeStream` (browser-pool.js lines 2192–2257): a missing stream logs
a warning and returns false with nothing changed; otherwise the screencast
is stopped, the encoder destroyed, the transport channel closed (each step's
error swallowed), and the stream's maps are all cleared. -/
def closeStream (sid : Nat) (eng : EngineState) (pool : PoolState) (enc : EncoderState)
    (rtc : WebRTCState) : (EngineState × PoolState × EncoderState × WebRTCState) × Bool :=
  match eng.streams.lookup sid with
  | none => ((eng, pool, enc, rtc), false)
  | some strm =>
    let pool1 := (stopScreencast strm.pageId pool).1
    let enc1 := destroyEncoder sid enc
    let rtc1 := (closeConnection sid rtc).2
    (({ streams := eng.streams.filter (fun p => p.1 ≠ sid),
        frameProcessors := fun k => if k = sid then none else eng.frameProcessors k,
        controllers := fun k => if k = sid then none else eng.controllers k },
      pool1, enc1, rtc1), true)

/-! ## Registry lemmas -/

/-- Removing every entry with a key leaves nothing for that key to find. -/
lemma lookup_filter_self {α : Type} (l : List (Nat × α)) (x : Nat) :
    (l.filter (fun p => p.1 ≠ x)).lookup x = none := by
  induction l with
  | nil => rfl
  | cons p t ih =>
    obtain ⟨k, v⟩ := p
    rw [List.filter_cons]
    by_cases h : k = x
    · have hd : (decide ((k, v).1 ≠ x)) = false := by simp [h]
      rw [hd]
      simpa using ih
    · have hd : (decide ((k, v).1 ≠ x)) = true := by simp [h]
      rw [hd]
      have hbeq : (x == k) = false := by simp [Ne.symm h]
      simp only [if_true, List.lookup, hbeq]
      exact ih

/-- Removing entries with a different key does not change a lookup. -/
lemma lookup_filter_ne {α : Type} (l : List (Nat × α)) (x sid : Nat) (h : sid ≠ x) :
    (l.filter (fun p => p.1 ≠ x)).lookup sid = l.lookup sid := by
  induction l with
  | nil => rfl
  | cons p t ih =>
    obtain ⟨k, v⟩ := p
    rw [List.filter_cons]
    by_cases hp : k = x
    · have hd : (decide ((k, v).1 ≠ x)) = false := by simp [hp]
      rw [hd]
      have hbeq : (sid == k) = false := by simp [hp, h]
      simp only [if_false, List.lookup, hbeq]
      exact ih
    · have hd : (decide ((k, v).1 ≠ x)) = true := by simp [hp]
      rw [hd]
      by_cases hs : sid = k
      · have hbeq : (sid == k) = true := by simp [hs]
        simp only [if_true, List.lookup, hbeq]
      · have hbeq : (sid == k) = false := by simp [hs]
        simp only [if_true, List.lookup, hbeq]
        exact ih

/-- Filtering out a key from a keyed record list defeats a later search for
that key. -/
lemma find?_key_filter {α : Type} (l : List α) (key : α → Nat) (x : Nat) :
    (l.filter (fun a => key a ≠ x)).find? (fun a => key a = x) = none := by
  rw [List.find?_eq_none]
  intro a ha
  have h2 := (List.mem_filter.mp ha).2
  simp only [decide_eq_true_eq] at h2 ⊢
  exact h2

/-- A successful lookup names an entry of the registry. -/
lemma lookup_some_mem {α : Type} (l : List (Nat × α)) (k : Nat) (v : α)
    (h : l.lookup k = some v) : (k, v) ∈ l := by
  induction l with
  | nil => simp [List.lookup] at h
  | cons p t ih =>
    obtain ⟨a, b⟩ := p
    by_cases hk : k = a
    · have hbeq : (k == a) = true := by simp [hk]
      simp only [List.lookup, hbeq] at h
      injection h with hbv
      subst hbv
      subst hk
      exact List.mem_cons_self _ _
    · have hbeq : (k == a) = false := by simp [hk]
      simp only [List.lookup, hbeq] at h
      exact List.mem_cons_of_mem _ (ih h)

/-- With pairwise-distinct keys, two entries under the same key coincide. -/
lemma nodup_key_eq {α : Type} (l : List (Nat × α)) (hnd : (l.map Prod.fst).Nodup)
    (k : Nat) (v v' : α) (h1 : (k, v) ∈ l) (h2 : (k, v') ∈ l) : v = v' := by
  induction l with
  | nil => simp at h1
  | cons p t ih =>
    simp only [List.map_cons, List.nodup_cons] at hnd
    rcases List.mem_cons.mp h1 with h1h | h1t <;>
      rcases List.mem_cons.mp h2 with h2h | h2t
    · rw [← h1h] at h2h
      exact congrArg Prod.snd h2h.symm
    · exfalso
      exact hnd.1 (h1h ▸ (List.mem_map.mpr ⟨(k, v'), h2t, rfl⟩))
    · exfalso
      exact hnd.1 (h2h ▸ (List.mem_map.mpr ⟨(k, v), h1t, rfl⟩))
    · exact ih hnd.2 h1t h2t

/-- `closeSession` always leaves the registry with no entry for the id. -/
lemma closeSession_lookup_self (sid : Nat) (sm : SMState) (pool : PoolState) :
    ((closeSession sid sm pool).1.1).sessions.lookup sid = none := by
  unfold closeSession
  cases hl : sm.sessions.lookup sid with
  | none => simpa using hl
  | some s =>
    simp only
    exact lookup_filter_self _ _

/-- Effect of one `closeSession` on an arbitrary lookup. -/
lemma closeSession_lookupState (x sid : Nat) (sm : SMState) (pool : PoolState) :
    ((closeSession x sm pool).1.1).sessions.lookup sid =
      if sid = x then none else sm.sessions.lookup sid := by
  by_cases h : sid = x
  · rw [if_pos h, h]
    exact closeSession_lookup_self x sm pool
  · rw [if_neg h]
    unfold closeSession
    cases hl : sm.sessions.lookup x with
    | none => rfl
    | some s =>
      simp only
      exact lookup_filter_ne _ _ _ h

/-- Effect of the cleanup fold over a list of ids on an arbitrary lookup. -/
lemma cleanup_fold_lookup (ids : List Nat) :
    ∀ (sm : SMState) (pool : PoolState) (sid : Nat),
      ((ids.foldl (fun acc x => (closeSession x acc.1 acc.2).1) (sm, pool)).1).sessions.lookup
          sid =
        if sid ∈ ids then none else sm.sessions.lookup sid := by
  induction ids with
  | nil => intro sm pool sid; simp
  | cons x t ih =>
    intro sm pool sid
    simp only [List.foldl_cons]
    rw [ih]
    by_cases hmem : sid ∈ t
    · simp [hmem]
    · rw [if_neg hmem, closeSession_lookupState]
      by_cases hx : sid = x
      · simp [hx]
      · simp [hx, hmem]

/-- `closePage` always leaves the page registry with no entry for the id. -/
lemma closePage_find_self (pid : Nat) (st : PoolState) :
    findPage (closePage pid st).1 pid = none := by
  unfold closePage
  cases hf : findPage st pid with
  | none => simpa using hf
  | some p =>
    simp only
    exact find?_key_filter _ _ _

/-- `closeStream` always leaves the stream registry with no entry for the
id. -/
lemma closeStream_lookup_self (sid : Nat) (eng : EngineState) (pool : PoolState)
    (enc : EncoderState) (rtc : WebRTCState) :
    ((closeStream sid eng pool enc rtc).1.1).streams.lookup sid = none := by
  unfold closeStream
  cases hl : eng.streams.lookup sid with
  | none => simpa using hl
  | some strm =>
    simp only
    exact lookup_filter_self _ _

/-- C8: calling close on a Session, Stream, or Page twice in a row: the
second call finds the entity already removed, returns false (a non-error
negative result), and leaves the entire state — including the pool, encoder
and transport registries — unchanged. -/
theorem C8_idempotent_teardown :
    (∀ (sid : Nat) (sm : SMState) (pool : PoolState),
      closeSession sid (closeSession sid sm pool).1.1 (closeSession sid sm pool).1.2 =
        (((closeSession sid sm pool).1.1, (closeSession sid sm pool).1.2), false)) ∧
    (∀ (sid : Nat) (eng : EngineState) (pool : PoolState) (enc : EncoderState)
        (rtc : WebRTCState),
      closeStream sid (closeStream sid eng pool enc rtc).1.1
          (closeStream sid eng pool enc rtc).1.2.1
          (closeStream sid eng pool enc rtc).1.2.2.1
          (closeStream sid eng pool enc rtc).1.2.2.2 =
        ((closeStream sid eng pool enc rtc).1, false)) ∧
    (∀ (pid : Nat) (pool : PoolState),
      closePage pid (closePage pid pool).1 = ((closePage pid pool).1, false)) := by
  refine ⟨fun sid sm pool => ?_, fun sid eng pool enc rtc => ?_, fun pid pool => ?_⟩
  · have hnone := closeSession_lookup_self sid sm pool
    generalize hr : closeSession sid sm pool = r at hnone ⊢
    unfold closeSession
    rw [hnone]
  · have hnone := closeStream_lookup_self sid eng pool enc rtc
    generalize hr : closeStream sid eng pool enc rtc = r at hnone ⊢
    unfold closeStream
    rw [hnone]
  · have hnone := closePage_find_self pid pool
    generalize hr : closePage pid pool = r at hnone ⊢
    unfold closePage findPage
    unfold findPage at hnone
    rw [hnone]

/-- A session created at time 0 whose last activity was 1 ms before the
cleanup tick below. -/
def staleSession : Session :=
  { id := 1, createdAt := 0, lastActivityAt := 999999, pageId := none, status := "created" }

/-- A session registry holding only `staleSession`. -/
def staleButActiveSession : SMState :=
  { sessions := [(1, staleSession)], timeouts := [1] }

/-- C7 counterexample: at `now = 1000000` ms with the default 5-minute
timeout, the session's last activity was 1 ms ago (far more recent than the
timeout), yet the periodic cleanup closes it, because
`cleanupExpiredSessions` also expires on absolute age since `createdAt`. -/
theorem C7_counterexample :
    ((1000000 : Nat) - 999999 < defaultSessionConfig.sessionTimeout * 60 * 1000) ∧
    ((cleanupExpiredSessions defaultSessionConfig 1000000 staleButActiveSession
        emptyPool).1).sessions.lookup 1 = none := by
  constructor
  · decide
  · decide

/-- C7 (amended): a session is TTL-refreshed on every activity
(`getSession` rewrites `lastActivityAt` to the access time); the periodic
cleanup loop closes a session exactly when its absolute age since creation
OR its inactivity since last activity strictly exceeds the configured
session timeout — so a recently-active session is still closed once it is
old enough. -/
theorem C7_session_ttl (cfg : SessionConfig) (now : Nat) (sm : SMState) (pool : PoolState)
    (sid : Nat) (s : Session)
    (hnd : (sm.sessions.map Prod.fst).Nodup)
    (hs : sm.sessions.lookup sid = some s) :
    (((cleanupExpiredSessions cfg now sm pool).1).sessions.lookup sid = none ↔
      (cfg.sessionTimeout * 60 * 1000 < now - s.createdAt ∨
       cfg.sessionTimeout * 60 * 1000 < now - s.lastActivityAt)) ∧
    (∀ s', (getSession sid now sm).2 = some s' → s'.lastActivityAt = now) := by
  constructor
  · unfold cleanupExpiredSessions
    rw [cleanup_fold_lookup]
    have hmem_iff : sid ∈ (sm.sessions.filter
        (fun p => sessionExpired cfg now p.2)).map Prod.fst ↔
        sessionExpired cfg now s = true := by
      constructor
      · intro hmem
        obtain ⟨p, hp, hfst⟩ := List.mem_map.mp hmem
        obtain ⟨hpl, hpe⟩ := List.mem_filter.mp hp
        obtain ⟨a, b⟩ := p
        simp only at hfst hpe
        have hmemab : (sid, b) ∈ sm.sessions := hfst ▸ hpl
        have hbs := nodup_key_eq sm.sessions hnd sid b s hmemab (lookup_some_mem _ _ _ hs)
        exact hbs ▸ hpe
      · intro hexp
        exact List.mem_map.mpr ⟨(sid, s),
          List.mem_filter.mpr ⟨lookup_some_mem _ _ _ hs, hexp⟩, rfl⟩
    by_cases hmem : sid ∈ (sm.sessions.filter (fun p => sessionExpired cfg now p.2)).map
        Prod.fst
    · rw [if_pos hmem]
      have hexp := hmem_iff.mp hmem
      simp only [sessionExpired, Bool.or_eq_true, decide_eq_true_eq] at hexp
      simp [hexp]
    · rw [if_neg hmem]
      rw [hs]
      have hnexp : ¬sessionExpired cfg now s = true := fun h => hmem (hmem_iff.mpr h)
      simp only [sessionExpired, Bool.or_eq_true, decide_eq_true_eq] at hnexp
      simp only [Option.some_ne_none, false_iff]
      exact hnexp
  · intro s' hs'
    unfold getSession at hs'
    rw [hs] at hs'
    simp only [Option.some.injEq] at hs'
    rw [← hs']

/-- Witness for C7 (amended) on the stale-but-active registry: the cleanup
closes the session, and the characterisation shows it is the absolute-age
condition that fires. -/
theorem C7_session_ttl_witness :
    staleButActiveSession.sessions.lookup 1 = some staleSession ∧
    (((cleanupExpiredSessions defaultSessionConfig 1000000 staleButActiveSession
        emptyPool).1).sessions.lookup 1 = none ↔
      (defaultSessionConfig.sessionTimeout * 60 * 1000 < 1000000 - 0 ∨
       defaultSessionConfig.sessionTimeout * 60 * 1000 < 1000000 - 999999)) := by
  refine ⟨rfl, ?_⟩
  exact (C7_session_ttl defaultSessionConfig 1000000 staleButActiveSession emptyPool 1
    staleSession (by decide) rfl).1

/-! ## Pool cap invariants (C1) -/

/-- The page-acquisition calls named by the claim. -/
inductive PoolOp where
  | createBrowser (bid now : Nat)
  | getOrCreateBrowser (bid now : Nat)
  | createPage (pid bid now : Nat)
  deriving DecidableEq, Repr

/-- Apply one acquisition; a thrown `ResourceLimitError` leaves the state
exactly as the source had mutated it up to the throw point. -/
def applyPoolOp (cfg : BrowserConfig) (st : PoolState) : PoolOp → PoolState
  | .createBrowser bid now => (createBrowser cfg bid now st).1
  | .getOrCreateBrowser bid now => (getOrCreateBrowser cfg bid now st).1
  | .createPage pid bid now => (createPage cfg pid bid now st).1

/-- Fold a sequence of acquisitions. -/
def applyPoolOps (cfg : BrowserConfig) (ops : List PoolOp) (st : PoolState) : PoolState :=
  ops.foldl (applyPoolOp cfg) st

/-- Pool invariant: global instance cap, per-instance live-page cap, and
pairwise-distinct registry ids. -/
def PoolInv (cfg : BrowserConfig) (st : PoolState) : Prop :=
  st.browsers.length ≤ cfg.maxBrowsers ∧
  (∀ b ∈ st.browsers, b.livePages ≤ cfg.maxPagesPerBrowser) ∧
  st.browsers.Pairwise (fun a b => a.id ≠ b.id)

/-- Freshness of the browser-id argument of a `createPage` relative to the
state it runs in — the default `uuidv4()` id generation always satisfies
it; only an explicit caller-chosen `browserId` can violate it. -/
def poolOpFresh (st : PoolState) : PoolOp → Prop
  | .createBrowser _ _ => True
  | .getOrCreateBrowser _ _ => True
  | .createPage _ bid _ => findBrowser st bid = none

/-- Freshness along the whole trace. -/
def FreshOps (cfg : BrowserConfig) : PoolState → List PoolOp → Prop
  | _, [] => True
  | st, op :: ops => poolOpFresh st op ∧ FreshOps cfg (applyPoolOp cfg st op) ops

/-- `createBrowser` preserves the pool invariant (it adds an entry only
when strictly under the global cap, with the engine's initial page count,
under a fresh id). -/
lemma createBrowser_inv (cfg : BrowserConfig) (bid now : Nat) (st : PoolState)
    (h1 : cfg.initialPages + 1 ≤ cfg.maxPagesPerBrowser)
    (hInv : PoolInv cfg st) : PoolInv cfg (createBrowser cfg bid now st).1 := by
  obtain ⟨hlen, hcap, hpw⟩ := hInv
  unfold createBrowser
  split_ifs with hfull
  · exact ⟨hlen, hcap, hpw⟩
  · cases hfind : findBrowser st bid with
    | some b =>
      simp only
      exact ⟨hlen, hcap, hpw⟩
    | none =>
      simp only
      refine ⟨?_, ?_, ?_⟩
      · simp only [List.length_append, List.length_cons, List.length_nil]
        omega
      · intro b hb
        rcases List.mem_append.mp hb with h | h
        · exact hcap b h
        · simp only [List.mem_singleton] at h
          subst h
          simp only
          omega
      · rw [List.pairwise_append]
        refine ⟨hpw, List.pairwise_singleton _ _, ?_⟩
        intro a ha b hb heq
        simp only [List.mem_singleton] at hb
        subst hb
        unfold findBrowser at hfind
        have h2 := List.find?_eq_none.mp hfind a ha
        simp only [decide_eq_true_eq] at h2
        exact h2 (by simpa using heq)

/-- `createBrowser` never touches the page registry. -/
lemma createBrowser_pages (cfg : BrowserConfig) (bid now : Nat) (st : PoolState) :
    (createBrowser cfg bid now st).1.pages = st.pages := by
  unfold createBrowser
  split_ifs
  · rfl
  · cases findBrowser st bid <;> rfl

/-- `createBrowser` preserves the global length bound unconditionally. -/
lemma createBrowser_len (cfg : BrowserConfig) (bid now : Nat) (st : PoolState)
    (hlen : st.browsers.length ≤ cfg.maxBrowsers) :
    (createBrowser cfg bid now st).1.browsers.length ≤ cfg.maxBrowsers := by
  unfold createBrowser
  split_ifs with hfull
  · exact hlen
  · cases findBrowser st bid with
    | some b => exact hlen
    | none =>
      simp only [List.length_append, List.length_cons, List.length_nil]
      omega

/-- On success under a fresh id, `createBrowser` returns that id and the
registry holds an entry for it with the engine's initial page count. -/
lemma createBrowser_fresh_target (cfg : BrowserConfig) (bid now : Nat) (st : PoolState)
    (hfresh : findBrowser st bid = none) (t : Nat)
    (hok : (createBrowser cfg bid now st).2 = .ok t) :
    t = bid ∧ ∃ br ∈ (createBrowser cfg bid now st).1.browsers,
      br.id = bid ∧ br.livePages = cfg.initialPages := by
  unfold createBrowser at hok ⊢
  by_cases hfull : cfg.maxBrowsers ≤ st.browsers.length
  · rw [if_pos hfull] at hok
    exact Except.noConfusion hok
  · rw [if_neg hfull] at hok ⊢
    rw [hfresh] at hok ⊢
    simp only [Except.ok.injEq] at hok
    subst hok
    exact ⟨rfl, ⟨_, List.mem_append_right _ (List.mem_singleton.mpr rfl), rfl, rfl⟩⟩

/-- The least-loaded scan only ever selects a browser strictly under the
page cap, and the selection (unless inherited from the accumulator) names a
registry entry with that live-page count. -/
lemma findBest_spec (cap : Nat) :
    ∀ (l : List Browser) (acc : Option (Nat × Nat)) (r : Nat × Nat),
      (∀ s, acc = some s → s.2 < cap) →
      findBest cap acc l = some r →
      r.2 < cap ∧ (acc = some r ∨ ∃ b ∈ l, b.id = r.1 ∧ b.livePages = r.2) := by
  intro l
  induction l with
  | nil =>
    intro acc r hacc hf
    exact ⟨hacc r hf, Or.inl hf⟩
  | cons b rest ih =>
    intro acc r hacc hf
    unfold findBest at hf
    cases acc with
    | none =>
      by_cases hc : b.livePages < cap
      · simp only [if_pos hc] at hf
        have := ih (some (b.id, b.livePages)) r
          (fun s hs => by cases hs; exact hc) hf
        rcases this with ⟨hlt, h | h⟩
        · refine ⟨hlt, Or.inr ?_⟩
          cases h
          exact ⟨b, List.mem_cons_self _ _, rfl, rfl⟩
        · obtain ⟨b', hb', h1, h2⟩ := h
          exact ⟨hlt, Or.inr ⟨b', List.mem_cons_of_mem _ hb', h1, h2⟩⟩
      · simp only [if_neg hc] at hf
        have := ih none r (fun s hs => by cases hs) hf
        rcases this with ⟨hlt, h | h⟩
        · cases h
        · obtain ⟨b', hb', h1, h2⟩ := h
          exact ⟨hlt, Or.inr ⟨b', List.mem_cons_of_mem _ hb', h1, h2⟩⟩
    | some s0 =>
      obtain ⟨bid0, minp⟩ := s0
      by_cases hc : b.livePages < minp ∧ b.livePages < cap
      · simp only [if_pos hc] at hf
        have := ih (some (b.id, b.livePages)) r
          (fun s hs => by cases hs; exact hc.2) hf
        rcases this with ⟨hlt, h | h⟩
        · refine ⟨hlt, Or.inr ?_⟩
          cases h
          exact ⟨b, List.mem_cons_self _ _, rfl, rfl⟩
        · obtain ⟨b', hb', h1, h2⟩ := h
          exact ⟨hlt, Or.inr ⟨b', List.mem_cons_of_mem _ hb', h1, h2⟩⟩
      · simp only [if_neg hc] at hf
        have := ih (some (bid0, minp)) r hacc hf
        rcases this with ⟨hlt, h | h⟩
        · exact ⟨hlt, Or.inl h⟩
        · obtain ⟨b', hb', h1, h2⟩ := h
          exact ⟨hlt, Or.inr ⟨b', List.mem_cons_of_mem _ hb', h1, h2⟩⟩

/-- `getOrCreateBrowser` preserves the pool invariant. -/
lemma getOrCreateBrowser_inv (cfg : BrowserConfig) (bid now : Nat) (st : PoolState)
    (h1 : cfg.initialPages + 1 ≤ cfg.maxPagesPerBrowser)
    (hInv : PoolInv cfg st) : PoolInv cfg (getOrCreateBrowser cfg bid now st).1 := by
  unfold getOrCreateBrowser
  split_ifs with hempty
  · exact createBrowser_inv cfg bid now st h1 hInv
  · cases findBest cfg.maxPagesPerBrowser none st.browsers with
    | some best => exact hInv
    | none => exact createBrowser_inv cfg bid now st h1 hInv

/-- `getOrCreateBrowser` never touches the page registry. -/
lemma getOrCreateBrowser_pages (cfg : BrowserConfig) (bid now : Nat) (st : PoolState) :
    (getOrCreateBrowser cfg bid now st).1.pages = st.pages := by
  unfold getOrCreateBrowser
  split_ifs
  · exact createBrowser_pages cfg bid now st
  · cases findBest cfg.maxPagesPerBrowser none st.browsers with
    | some best => rfl
    | none => exact createBrowser_pages cfg bid now st

/-- `getOrCreateBrowser` preserves the global length bound
unconditionally. -/
lemma getOrCreateBrowser_len (cfg : BrowserConfig) (bid now : Nat) (st : PoolState)
    (hlen : st.browsers.length ≤ cfg.maxBrowsers) :
    (getOrCreateBrowser cfg bid now st).1.browsers.length ≤ cfg.maxBrowsers := by
  unfold getOrCreateBrowser
  split_ifs
  · exact createBrowser_len cfg bid now st hlen
  · cases findBest cfg.maxPagesPerBrowser none st.browsers with
    | some best => exact hlen
    | none => exact createBrowser_len cfg bid now st hlen

/-- On success under a fresh browser id, the target browser returned by
`getOrCreateBrowser` has spare page capacity in the post-state. -/
lemma getOrCreateBrowser_target (cfg : BrowserConfig) (bid now : Nat) (st : PoolState)
    (h1 : cfg.initialPages + 1 ≤ cfg.maxPagesPerBrowser)
    (hfresh : findBrowser st bid = none) (t : Nat)
    (hok : (getOrCreateBrowser cfg bid now st).2 = .ok t) :
    ∃ br ∈ (getOrCreateBrowser cfg bid now st).1.browsers,
      br.id = t ∧ br.livePages + 1 ≤ cfg.maxPagesPerBrowser := by
  unfold getOrCreateBrowser at hok ⊢
  split_ifs at hok ⊢ with hempty
  · obtain ⟨ht, br, hbr, hid, hlp⟩ :=
      createBrowser_fresh_target cfg bid now st hfresh t hok
    exact ⟨br, hbr, ht ▸ hid, by omega⟩
  · cases hfb : findBest cfg.maxPagesPerBrowser none st.browsers with
    | some best =>
      rw [hfb] at hok
      simp only [Except.ok.injEq] at hok
      obtain ⟨hlt, h | h⟩ := findBest_spec cfg.maxPagesPerBrowser st.browsers none best
        (fun s hs => by cases hs) hfb
      · cases h
      · obtain ⟨b', hb', h1', h2'⟩ := h
        exact ⟨b', hb', hok ▸ h1', by omega⟩
    | none =>
      rw [hfb] at hok
      obtain ⟨ht, br, hbr, hid, hlp⟩ :=
        createBrowser_fresh_target cfg bid now st hfresh t hok
      exact ⟨br, hbr, ht ▸ hid, by omega⟩

/-- With pairwise-distinct ids, two registry entries under the same id
coincide. -/
lemma pairwise_id_unique (l : List Browser)
    (hpw : l.Pairwise (fun a b => a.id ≠ b.id)) :
    ∀ a ∈ l, ∀ b ∈ l, a.id = b.id → a = b := by
  induction l with
  | nil => simp
  | cons x xs ih =>
    rw [List.pairwise_cons] at hpw
    intro a ha b hb hab
    rcases List.mem_cons.mp ha with h1 | h1 <;> rcases List.mem_cons.mp hb with h2 | h2
    · rw [h1, h2]
    · exact absurd (h1 ▸ hab) (hpw.1 b h2)
    · exact absurd (h2 ▸ hab).symm (hpw.1 a h1)
    · exact ih hpw.2 a h1 b h2 hab

/-- `updateBrowser` with an id-preserving update keeps the length and the
pairwise-distinct-id property, and keeps the page-cap bound when the
(unique) target entry stays under the cap after the update. -/
lemma updateBrowser_inv (cfg : BrowserConfig) (tb : Nat) (st : PoolState)
    (hInv : PoolInv cfg st)
    (htarget : ∃ br ∈ st.browsers, br.id = tb ∧
      br.livePages + 1 ≤ cfg.maxPagesPerBrowser) :
    PoolInv cfg (updateBrowser tb pageIncr st) := by
  obtain ⟨hlen, hcap, hpw⟩ := hInv
  obtain ⟨br, hbr, hbid, hblp⟩ := htarget
  refine ⟨?_, ?_, ?_⟩
  · simpa [updateBrowser] using hlen
  · intro b hb
    obtain ⟨a, ha, hab⟩ := List.mem_map.mp hb
    by_cases hid : a.id = tb
    · have haeq : a = br := pairwise_id_unique st.browsers hpw a ha br hbr (hid.trans hbid.symm)
      rw [← hab]
      simp only [hid, if_true, pageIncr]
      rw [haeq]
      omega
    · rw [← hab]
      simp only [hid, if_false]
      exact hcap a ha
  · unfold updateBrowser
    simp only
    rw [List.pairwise_map]
    refine hpw.imp ?_
    intro a b hne
    have hga : (if a.id = tb then pageIncr a else a).id = a.id := by
      split_ifs <;> rfl
    have hgb : (if b.id = tb then pageIncr b else b).id = b.id := by
      split_ifs <;> rfl
    simpa [hga, hgb] using hne

/-- `createPage` preserves the pool invariant when its browser-id argument
is fresh. -/
lemma createPage_inv (cfg : BrowserConfig) (pid bid now : Nat) (st : PoolState)
    (h1 : cfg.initialPages + 1 ≤ cfg.maxPagesPerBrowser)
    (hInv : PoolInv cfg st) (hfresh : findBrowser st bid = none) :
    PoolInv cfg (createPage cfg pid bid now st).1 := by
  have hInv1 := getOrCreateBrowser_inv cfg bid now st h1 hInv
  unfold createPage
  cases hg : getOrCreateBrowser cfg bid now st with
  | mk st1 res =>
    rw [hg] at hInv1
    cases res with
    | error e => exact hInv1
    | ok target =>
      have htarget := getOrCreateBrowser_target cfg bid now st h1 hfresh target
        (by rw [hg])
      rw [hg] at htarget
      cases hfp : findPage st1 pid with
      | some p =>
        simp only [hfp]
        exact hInv1
      | none =>
        simp only [hfp]
        have hup := updateBrowser_inv cfg target st1 hInv1 htarget
        exact ⟨hup.1, hup.2.1, hup.2.2⟩

/-- `createPage` preserves the global length bound unconditionally. -/
lemma createPage_len (cfg : BrowserConfig) (pid bid now : Nat) (st : PoolState)
    (hlen : st.browsers.length ≤ cfg.maxBrowsers) :
    (createPage cfg pid bid now st).1.browsers.length ≤ cfg.maxBrowsers := by
  have hlen1 := getOrCreateBrowser_len cfg bid now st hlen
  unfold createPage
  cases hg : getOrCreateBrowser cfg bid now st with
  | mk st1 res =>
    rw [hg] at hlen1
    cases res with
    | error e => exact hlen1
    | ok target =>
      cases hfp : findPage st1 pid with
      | some p =>
        simp only [hfp]
        exact hlen1
      | none =>
        simp only [hfp]
        simpa [updateBrowser] using hlen1

/-- One acquisition preserves the full pool invariant, given a fresh
browser-id argument where one matters. -/
lemma applyPoolOp_inv (cfg : BrowserConfig) (op : PoolOp) (st : PoolState)
    (h1 : cfg.initialPages + 1 ≤ cfg.maxPagesPerBrowser)
    (hInv : PoolInv cfg st) (hfresh : poolOpFresh st op) :
    PoolInv cfg (applyPoolOp cfg st op) := by
  cases op with
  | createBrowser bid now => exact createBrowser_inv cfg bid now st h1 hInv
  | getOrCreateBrowser bid now => exact getOrCreateBrowser_inv cfg bid now st h1 hInv
  | createPage pid bid now => exact createPage_inv cfg pid bid now st h1 hInv hfresh

/-- The invariant holds along any fresh trace. -/
lemma applyPoolOps_inv (cfg : BrowserConfig)
    (h1 : cfg.initialPages + 1 ≤ cfg.maxPagesPerBrowser) :
    ∀ (ops : List PoolOp) (st : PoolState), PoolInv cfg st → FreshOps cfg st ops →
      PoolInv cfg (applyPoolOps cfg ops st) := by
  intro ops
  induction ops with
  | nil => intro st hInv _; exact hInv
  | cons op rest ih =>
    intro st hInv hfr
    exact ih (applyPoolOp cfg st op)
      (applyPoolOp_inv cfg op st h1 hInv hfr.1) hfr.2

/-- One acquisition preserves the global length bound, unconditionally. -/
lemma applyPoolOp_len (cfg : BrowserConfig) (op : PoolOp) (st : PoolState)
    (hlen : st.browsers.length ≤ cfg.maxBrowsers) :
    (applyPoolOp cfg st op).browsers.length ≤ cfg.maxBrowsers := by
  cases op with
  | createBrowser bid now => exact createBrowser_len cfg bid now st hlen
  | getOrCreateBrowser bid now => exact getOrCreateBrowser_len cfg bid now st hlen
  | createPage pid bid now => exact createPage_len cfg pid bid now st hlen

/-- The length bound holds along every trace, fresh or not. -/
lemma applyPoolOps_len (cfg : BrowserConfig) :
    ∀ (ops : List PoolOp) (st : PoolState), st.browsers.length ≤ cfg.maxBrowsers →
      (applyPoolOps cfg ops st).browsers.length ≤ cfg.maxBrowsers := by
  intro ops
  induction ops with
  | nil => intro st hlen; exact hlen
  | cons op rest ih =>
    intro st hlen
    exact ih (applyPoolOp cfg st op) (applyPoolOp_len cfg op st hlen)

/-- The acquisition trace of C1's counterexample: one explicit browser,
four pages filling it to the five-page cap (one initial engine page plus
four pool pages), then a `createPage` that names the full browser's id. -/
def c1Ops : List PoolOp :=
  [.createBrowser 1 0, .createPage 10 2 0, .createPage 11 3 0,
   .createPage 12 4 0, .createPage 13 5 0, .createPage 14 1 0]

/-- C1 counterexample: under the default config (5 browsers, 5 pages per
browser), the final `createPage` of `c1Ops` passes `browserId = 1` — the
full browser — and since `createBrowser` returns an existing id unchanged
without any capacity check on its pages, `newPage` runs on it and its live
page count exceeds `maxPagesPerBrowser`, with no `ResourceLimitError`. -/
theorem C1_counterexample :
    ∃ b ∈ (applyPoolOps defaultBrowserConfig c1Ops emptyPool).browsers,
      defaultBrowserConfig.maxPagesPerBrowser < b.livePages := by
  decide

/-- C1 (amended): over every sequence of page-acquisition calls the total
Instance count never exceeds `maxBrowsers`, and an acquisition that would
exceed the global cap is rejected with `ResourceLimitError` (state
untouched); the per-instance live-page cap additionally holds for every
trace whose `createPage` calls use fresh browser ids (the default
`uuidv4()` path) — an explicit `browserId` naming an existing browser can
breach it. -/
theorem C1_pool_caps (cfg : BrowserConfig)
    (h1 : cfg.initialPages + 1 ≤ cfg.maxPagesPerBrowser) :
    (∀ ops : List PoolOp,
      (applyPoolOps cfg ops emptyPool).browsers.length ≤ cfg.maxBrowsers) ∧
    (∀ ops : List PoolOp, FreshOps cfg emptyPool ops →
      ∀ b ∈ (applyPoolOps cfg ops emptyPool).browsers,
        b.livePages ≤ cfg.maxPagesPerBrowser) ∧
    (∀ (bid now : Nat) (st : PoolState), cfg.maxBrowsers ≤ st.browsers.length →
      createBrowser cfg bid now st = (st, .error .resourceLimit)) := by
  have hempty : PoolInv cfg emptyPool :=
    ⟨Nat.zero_le _, by intro b hb; simp [emptyPool] at hb, List.Pairwise.nil⟩
  refine ⟨?_, ?_, ?_⟩
  · intro ops
    exact applyPoolOps_len cfg ops emptyPool (Nat.zero_le _)
  · intro ops hfr
    exact (applyPoolOps_inv cfg h1 ops emptyPool hempty hfr).2.1
  · intro bid now st hcap
    unfold createBrowser
    rw [if_pos hcap]

/-- A pool already at the default global browser cap. -/
def cappedPool : PoolState :=
  { browsers := (List.range 5).map
      (fun i => { id := i, createdAt := 0, pagesCreated := 0, livePages := 1,
                  hasProcess := true })
    pages := [] }

/-- Witness for C1 (amended) under the default config: a short fresh trace
respects both caps, and a launch at the global cap is rejected. -/
theorem C1_pool_caps_witness :
    defaultBrowserConfig.initialPages + 1 ≤ defaultBrowserConfig.maxPagesPerBrowser ∧
    (applyPoolOps defaultBrowserConfig [.createBrowser 1 0, .createPage 10 2 5]
        emptyPool).browsers.length ≤ defaultBrowserConfig.maxBrowsers ∧
    createBrowser defaultBrowserConfig 9 0 cappedPool =
      (cappedPool, .error .resourceLimit) := by
  have h := C1_pool_caps defaultBrowserConfig (by norm_num [defaultBrowserConfig])
  exact ⟨by norm_num [defaultBrowserConfig], h.1 _, h.2.2 9 0 cappedPool (by decide)⟩

/-- A pool holding one idle browser: a live process, zero live pages, both
restart thresholds unreached. -/
def idlePool : PoolState :=
  { browsers := [{ id := 1, createdAt := 0, pagesCreated := 3, livePages := 0, hasProcess := true }]
    pages := [] }

/-- A pool holding one browser whose lifetime page-creation count has
reached the restart threshold (50). -/
def wornPool : PoolState :=
  { browsers := [{ id := 1, createdAt := 0, pagesCreated := 50, livePages := 2, hasProcess := true }]
    pages := [] }

/-- A pool holding one browser as old as the max-age threshold (1 hour). -/
def agedPool : PoolState :=
  { browsers := [{ id := 1, createdAt := 0, pagesCreated := 3, livePages := 2, hasProcess := true }]
    pages := [] }

/-- C9 at the failing input: a health-loop tick over a browser with ZERO
live pages leaves the pool bit-for-bit unchanged — the idle-reclamation
branch can never fire because the source reads `browser.pages().length`
without awaiting the Promise, so the test is `undefined === 0`.  The two
restart branches do work: a browser at the page-creation threshold or the
age threshold is closed and relaunched under the same id with fresh
counters. -/
theorem C9_monitor_loop :
    monitorMemoryUsage defaultBrowserConfig 1000 idlePool = idlePool ∧
    findBrowser (monitorBrowserStep defaultBrowserConfig 1000 wornPool 1) 1 =
      some { id := 1, createdAt := 1000, pagesCreated := 0, livePages := 1, hasProcess := true } ∧
    findBrowser (monitorBrowserStep defaultBrowserConfig 3600000 agedPool 1) 1 =
      some { id := 1, createdAt := 3600000, pagesCreated := 0, livePages := 1, hasProcess := true } := by
  refine ⟨?_, ?_, ?_⟩ <;> decide

/-- A pool whose single browser is at the per-instance page cap, with page
id 7 registered to it. -/
def fullBrowserPool : PoolState :=
  { browsers := [{ id := 1, createdAt := 0, pagesCreated := 4, livePages := 5, hasProcess := true }]
    pages := [{ id := 7, browserId := 1, screencastRunning := false }] }

/-- C10 counterexample: `createPage` with the already-registered page id 7
— with the browser cap not reached (one of five) — returns the stored page
and raises no error, but it is NOT state-preserving: it resolves a target
browser BEFORE the existence check, and since the only browser is full, a
brand-new browser is launched and registered as a side effect. -/
theorem C10_counterexample :
    (createPage defaultBrowserConfig 7 2 0 fullBrowserPool).2 = .ok 7 ∧
    fullBrowserPool.browsers.length = 1 ∧
    (createPage defaultBrowserConfig 7 2 0 fullBrowserPool).1.browsers.length = 2 := by
  refine ⟨rfl, ?_, ?_⟩ <;> decide

/-- Under the global cap, `getOrCreateBrowser` always succeeds. -/
lemma getOrCreateBrowser_ok (cfg : BrowserConfig) (bid now : Nat) (st : PoolState)
    (hlt : st.browsers.length < cfg.maxBrowsers) :
    ∃ t, (getOrCreateBrowser cfg bid now st).2 = .ok t := by
  unfold getOrCreateBrowser
  split_ifs with hempty
  · unfold createBrowser
    rw [if_neg (by omega)]
    cases findBrowser st bid <;> exact ⟨bid, rfl⟩
  · cases hfb : findBest cfg.maxPagesPerBrowser none st.browsers with
    | some best => exact ⟨best.1, rfl⟩
    | none =>
      unfold createBrowser
      rw [if_neg (by omega)]
      cases findBrowser st bid <;> exact ⟨bid, rfl⟩

/-- C10 (amended): creation is idempotent in the id for sessions, browsers
and encoders — under the respective cap, a create with a registered id
returns the stored object, raises no error and changes nothing.
`createPage` with a registered page id (under the browser cap) likewise
returns the stored page, raises no error and adds no page — but its state
is the `getOrCreateBrowser` post-state, which may contain a freshly
launched browser, because the target browser is resolved before the
existence check. -/
theorem C10_idempotent_creation :
    (∀ (cfg : SessionConfig) (sid now : Nat) (st : SMState) (s : Session),
      st.sessions.length < cfg.maxConcurrentSessions →
      st.sessions.lookup sid = some s →
      createSession cfg sid now st = (st, .ok s)) ∧
    (∀ (cfg : BrowserConfig) (bid now : Nat) (st : PoolState) (b : Browser),
      st.browsers.length < cfg.maxBrowsers →
      findBrowser st bid = some b →
      createBrowser cfg bid now st = (st, .ok bid)) ∧
    (∀ (eid : Nat) (strategy : String) (st : EncoderState) (e : Encoder),
      st.encoders eid = some e →
      createEncoder eid strategy st = (e, st)) ∧
    (∀ (cfg : BrowserConfig) (pid bid now : Nat) (st : PoolState) (p : PageInfo),
      st.browsers.length < cfg.maxBrowsers →
      findPage st pid = some p →
      createPage cfg pid bid now st =
        ((getOrCreateBrowser cfg bid now st).1, .ok p.id) ∧
      (createPage cfg pid bid now st).1.pages = st.pages) := by
  refine ⟨?_, ?_, ?_, ?_⟩
  · intro cfg sid now st s hlt hs
    unfold createSession
    rw [if_neg (by omega), hs]
  · intro cfg bid now st b hlt hb
    unfold createBrowser
    rw [if_neg (by omega), hb]
  · intro eid strategy st e he
    unfold createEncoder
    rw [he]
  · intro cfg pid bid now st p hlt hp
    obtain ⟨t, ht⟩ := getOrCreateBrowser_ok cfg bid now st hlt
    have hpages := getOrCreateBrowser_pages cfg bid now st
    unfold createPage
    cases hg : getOrCreateBrowser cfg bid now st with
    | mk st1 res =>
      rw [hg] at ht hpages
      simp only at ht hpages
      subst ht
      have hfp1 : findPage st1 pid = some p := by
        unfold findPage at hp ⊢
        rw [hpages]
        exact hp
      simp only [hfp1]
      exact ⟨by trivial, hpages⟩

/-- Witness for C10 (amended): re-creating the already-registered browser
id 1 in `fullBrowserPool` (one browser of five allowed) returns the stored
id and changes nothing. -/
theorem C10_idempotent_creation_witness :
    fullBrowserPool.browsers.length < defaultBrowserConfig.maxBrowsers ∧
    createBrowser defaultBrowserConfig 1 99 fullBrowserPool = (fullBrowserPool, .ok 1) := by
  refine ⟨by decide, ?_⟩
  exact C10_idempotent_creation.2.1 defaultBrowserConfig 1 99 fullBrowserPool
    { id := 1, createdAt := 0, pagesCreated := 4, livePages := 5, hasProcess := true }
    (by decide) (by decide)

end RBI
